import Mathlib

/-!
# tesla-cli: the login flow of `cmd/tesla/auth.go`

A shallow embedding of the OAuth2 login flow (`auth.Do` and the functions it
calls) and of the PKCE generator `pkce`, followed by the properties proved
about them.

Conventions of the embedding:

* bytes are natural numbers below 256, 32-bit words are natural numbers
  reduced modulo `2^32`;
* a Go `(value, error)` result is an `Except GoError value`, except where the
  source returns both components of the tuple to its caller, in which case the
  tuple is kept;
* everything outside the repository (the network behind `http.Client.Do`, the
  HTML and JSON decoders, the cookie jar constructor, the random source) is an
  input of the model, so that every theorem quantifies over all behaviours of
  those parts.
-/

set_option autoImplicit false

namespace Tesla

/-! ## Library: `encoding/base64` (RawURLEncoding) -/

/-- The alphabet of base64.URLEncoding. -/
def encodeURL : List Char :=
  "ABCDEFGHIJKLMNOPQRSTUVWXYZabcdefghijklmnopqrstuvwxyz0123456789-_".data

/-- The character for the low six bits of `n`. -/
def encodeChar (n : Nat) : Char := encodeURL.getD (n % 64) 'A'

/-- The encoder loop of `Encoding.Encode` without padding: three bytes give four
characters, a remainder of one or two bytes gives two or three. -/
def encodeBytes : List Nat → List Char
  | [] => []
  | [a] =>
    let val := a <<< 16
    [encodeChar (val >>> 18), encodeChar (val >>> 12)]
  | [a, b] =>
    let val := (a <<< 16) ||| (b <<< 8)
    [encodeChar (val >>> 18), encodeChar (val >>> 12), encodeChar (val >>> 6)]
  | a :: b :: c :: rest =>
    let val := (a <<< 16) ||| (b <<< 8) ||| c
    encodeChar (val >>> 18) :: encodeChar (val >>> 12) :: encodeChar (val >>> 6)
      :: encodeChar val :: encodeBytes rest

/-- Go `base64.RawURLEncoding.EncodeToString`. -/
def EncodeToString (src : List Nat) : String := ⟨encodeBytes src⟩

/-! ## Library: `crypto/sha256` (FIPS 180-4) -/

/-- The 64 round constants. -/
def K : List Nat := [
  1116352408, 1899447441, 3049323471, 3921009573, 961987163, 1508970993, 2453635748, 2870763221,
  3624381080, 310598401, 607225278, 1426881987, 1925078388, 2162078206, 2614888103, 3248222580,
  3835390401, 4022224774, 264347078, 604807628, 770255983, 1249150122, 1555081692, 1996064986,
  2554220882, 2821834349, 2952996808, 3210313671, 3336571891, 3584528711, 113926993, 338241895,
  666307205, 773529912, 1294757372, 1396182291, 1695183700, 1986661051, 2177026350, 2456956037,
  2730485921, 2820302411, 3259730800, 3345764771, 3516065817, 3600352804, 4094571909, 275423344,
  430227734, 506948616, 659060556, 883997877, 958139571, 1322822218, 1537002063, 1747873779,
  1955562222, 2024104815, 2227730452, 2361852424, 2428436474, 2756734187, 3204031479, 3329325298]

/-- The initial hash value. -/
def init256 : List Nat :=
  [1779033703, 3144134277, 1013904242, 2773480762, 1359893119, 2600822924, 528734635, 1541459225]

/-- Reduction to a 32-bit word. -/
def w32 (x : Nat) : Nat := x % 4294967296

/-- Rotation of a 32-bit word to the right. -/
def rotr (x n : Nat) : Nat := w32 ((x >>> n) ||| (x <<< (32 - n)))

/-- Four bytes, big-endian, as a word. -/
def beWord : List Nat → Nat
  | [a, b, c, d] => (a <<< 24) ||| (b <<< 16) ||| (c <<< 8) ||| d
  | _ => 0

/-- A word as four bytes, big-endian. -/
def beBytes (x : Nat) : List Nat :=
  [(x >>> 24) % 256, (x >>> 16) % 256, (x >>> 8) % 256, x % 256]

/-- Message padding: `0x80`, zeros up to 56 modulo 64, then the bit length on 8 bytes. -/
def pad (msg : List Nat) : List Nat :=
  let len := msg.length
  let zeros := (55 + 64 - len % 64) % 64
  msg ++ [128] ++ List.replicate zeros 0 ++ beBytes ((len * 8) >>> 32) ++ beBytes (w32 (len * 8))

/-- The first `k` consecutive pieces of `n` elements of a list. -/
def chunks (n : Nat) : Nat → List Nat → List (List Nat)
  | 0, _ => []
  | k + 1, l => l.take n :: chunks n k (l.drop n)

/-- Extend the message schedule: `w` holds the words so far, newest first. -/
def schedule : Nat → List Nat → List Nat
  | 0, w => w
  | k + 1, w =>
    let w2 := w.getD 1 0
    let w7 := w.getD 6 0
    let w15 := w.getD 14 0
    let w16 := w.getD 15 0
    let s0 := rotr w15 7 ^^^ rotr w15 18 ^^^ (w15 >>> 3)
    let s1 := rotr w2 17 ^^^ rotr w2 19 ^^^ (w2 >>> 10)
    schedule k (w32 (s1 + w7 + s0 + w16) :: w)

/-- The eight working variables. -/
structure Regs where
  a : Nat
  b : Nat
  c : Nat
  d : Nat
  e : Nat
  f : Nat
  g : Nat
  h : Nat

/-- One round of compression with constant `kw.1` and schedule word `kw.2`. -/
def round (r : Regs) (kw : Nat × Nat) : Regs :=
  let t1 := r.h + (rotr r.e 6 ^^^ rotr r.e 11 ^^^ rotr r.e 25)
    + ((r.e &&& r.f) ^^^ ((r.e ^^^ 4294967295) &&& r.g)) + kw.1 + kw.2
  let t2 := (rotr r.a 2 ^^^ rotr r.a 13 ^^^ rotr r.a 22)
    + ((r.a &&& r.b) ^^^ (r.a &&& r.c) ^^^ (r.b &&& r.c))
  ⟨w32 (t1 + t2), r.a, r.b, r.c, w32 (r.d + t1), r.e, r.f, r.g⟩

/-- Compression of one 64-byte block `p` into the hash state `h`. -/
def block (h : List Nat) (p : List Nat) : List Nat :=
  let w0 := ((chunks 4 16 p).map beWord).reverse
  let w := (schedule 48 w0).reverse
  let r0 : Regs := ⟨h.getD 0 0, h.getD 1 0, h.getD 2 0, h.getD 3 0,
    h.getD 4 0, h.getD 5 0, h.getD 6 0, h.getD 7 0⟩
  let r := (K.zip w).foldl round r0
  List.zipWith (fun x y => w32 (x + y)) h [r.a, r.b, r.c, r.d, r.e, r.f, r.g, r.h]

/-- Go `sha256.Sum256`: the digest as 32 bytes. -/
def Sum256 (data : List Nat) : List Nat :=
  let m := pad data
  ((chunks 64 (m.length / 64) m).foldl block init256).flatMap beBytes


/-- Go `[]byte(s)`: the UTF-8 bytes of a string. -/
def stringBytes (s : String) : List Nat :=
  s.data.flatMap (fun c => (String.utf8EncodeChar c).map UInt8.toNat)

/-! ## Go errors -/

/-- A Go `error` value. `new msg` is an error built by `errors.New(msg)`, by
`fmt.Errorf` without `%w`, or handed back by a library; `wrap step err` is
`fmt.Errorf(step + ": %w", err)`. -/
inductive GoError where
  | new (msg : String)
  | wrap (step : String) (err : GoError)
  deriving DecidableEq, Repr

/-- The method `Error()`: the message of an error. -/
def GoError.Error : GoError → String
  | .new msg => msg
  | .wrap step err => step ++ ": " ++ err.Error

/-! ## `pkce` (auth.go, lines 273-282) -/

/-- Go `pkce()`. `sum256` is the hash function (`sha256.Sum256` in the source)
and `random` is what `io.ReadFull(rand.Reader, p[:])` does to the 87-byte
array `p`: it fails, or fills it with the bytes given.

The named result `challenge` is still the empty string when line 279 hashes
`[]byte(challenge)`; `verifier` is assigned on the line before and is not
read again. -/
def pkce (sum256 : List Nat → List Nat) (random : Except GoError (List Nat)) :
    String × String × Option GoError :=
  match random with
  | .error err => ("", "", some (.wrap "rand read full" err))
  | .ok p =>
    let challenge := ""
    let verifier := EncodeToString p
    let b := sum256 (stringBytes challenge)
    let challenge := EncodeToString b
    (verifier, challenge, none)

/-! ## Library: `net/url` values, HTML nodes, HTTP messages -/

/-- Go `url.Values` (`map[string][]string`): at most one binding per key is
ever created by the operations below. -/
abbrev Values := List (String × List String)

/-- Go `Values.Get`: the first value bound to `key`, or the empty string. -/
def Values.Get (v : Values) (key : String) : String :=
  match v.lookup key with
  | some (x :: _) => x
  | _ => ""

/-- Go `Values.Set`: `v[key] = []string{value}`, replacing what was bound. -/
def Values.Set (v : Values) (key value : String) : Values :=
  v.filter (fun kv => kv.1 != key) ++ [(key, [value])]

/-- An element of a parsed HTML document: its tag and its attributes in
source order. -/
structure Node where
  Data : String
  Attr : List (String × String)
  deriving DecidableEq, Repr

/-- A parsed HTML document: its elements in document order. -/
abbrev Document := List Node

/-- goquery `Selection.Attr` on one element: the value of the first attribute
called `name`, and whether there is one. -/
def Node.attr (s : Node) (name : String) : Option String :=
  s.Attr.lookup name

/-- The selection `d.Find("input[type=hidden]")`, in document order. -/
def Document.hiddenInputs (d : Document) : List Node :=
  d.filter (fun s => s.Data == "input" && s.attr "type" == some "hidden")

/-- An enrolled MFA factor (struct `device`); the two timestamps are kept as
their RFC 3339 text. -/
structure device where
  DispatchRequired : Bool
  ID : String
  Name : String
  FactorType : String
  FactorProvider : String
  SecurityLevel : Int
  Activated : String
  Updated : String
  deriving DecidableEq, Repr, Inhabited

/-- Where a request goes: a URL given as text, or one rendered from a
`url.URL` literal whose query is the encoding of `Query`. -/
inductive Target where
  | raw (url : String)
  | built (Scheme Host Path : String) (Query : Values)
  deriving DecidableEq, Repr

/-- What a request carries: nothing, the encoding `v.Encode()` of form values,
or the JSON encoding of a `map[string]string`. -/
inductive Payload where
  | none
  | form (v : Values)
  | json (m : List (String × String))
  deriving DecidableEq, Repr

/-- An outgoing `http.Request`. -/
structure Request where
  Method : String
  URL : Target
  Header : List (String × String)
  Body : Payload
  deriving DecidableEq, Repr

/-- A parsed `url.URL`, seen through `u.Query()`. -/
structure URL where
  Query : Values
  deriving DecidableEq, Repr

/-- The `Location` header of a response as `Response.Location()` sees it:
absent, present but not a URL (with the parse error), or a URL. -/
inductive LocationHeader where
  | missing
  | unparsable (err : GoError)
  | url (u : URL)
  deriving DecidableEq, Repr

/-- A response body, seen through the three decoders the program applies to
bodies: `goquery.NewDocumentFromReader`, the JSON decoding into
`struct { Data []device }` (giving `Data`), and the JSON decoding into
`struct { Data struct { Approved bool } }` (giving `Data.Approved`). -/
structure ResponseBody where
  document : Except GoError Document
  devices : Except GoError (List device)
  approved : Except GoError Bool

/-- An `http.Response`. -/
structure Response where
  StatusCode : Nat
  Header : LocationHeader
  Body : ResponseBody

/-- Go `http.ErrNoLocation`. -/
def ErrNoLocation : GoError := .new "http: no Location header in response"

/-- Go `Response.Location()`. -/
def Response.Location (res : Response) : Except GoError URL :=
  match res.Header with
  | .missing => .error ErrNoLocation
  | .unparsable err => .error err
  | .url u => .ok u

/-- Go `http.StatusOK`. -/
def StatusOK : Nat := 200

/-- Go `http.StatusFound`. -/
def StatusFound : Nat := 302

/-! ## The client and the receiver -/

/-- The value of `http.Client.CheckRedirect`: `nil` (follow redirects), the
closure `Do` installs (it returns `http.ErrUseLastResponse`), or some other
function the owner of the client installed. -/
inductive CheckRedirectFn where
  | nil
  | useLastResponse
  | custom (id : Nat)
  deriving DecidableEq, Repr

/-- A cookie jar (`http.CookieJar`). -/
structure Jar where
  id : Nat
  deriving DecidableEq, Repr

/-- The fields of `http.Client` the flow reads or writes. -/
structure Client where
  CheckRedirect : CheckRedirectFn
  Jar : Option Jar
  deriving DecidableEq, Repr

/-- The functions of the flow that are recorded when entered. -/
inductive Fn where
  | login
  | listDevices
  | verify
  | commit
  deriving DecidableEq, Repr

/-- What a run does, in order: a function of the flow is entered, a request is
handed to `Client.Do` while the client has a given `CheckRedirect`, the
`SelectDevice` callback is called with a device list. -/
inductive Event where
  | call (fn : Fn)
  | send (policy : CheckRedirectFn) (req : Request)
  | selectDevice (devices : List device)
  deriving DecidableEq, Repr

/-- The world outside the repository. `ClientDo` answers a request given all
that happened before in the run and the redirect policy of the client. -/
structure Env where
  cookiejarNew : Except GoError Jar
  NewRequest : String → Target → Option GoError
  jsonEncode : List (String × String) → Option GoError
  ClientDo : List Event → CheckRedirectFn → Request → Except GoError Response

/-- Struct `auth`. `SelectDevice` returns the Go triple
`(d, passcode, err)`. -/
structure auth where
  Client : Option Client
  AuthURL : String
  SelectDevice : List device → device × String × Option GoError
  userAgent : String

/-- The constant `mfaVerifyURL`. -/
def mfaVerifyURL : String := "https://auth.tesla.com/oauth2/v3/authorize/mfa/verify"

/-- The client literal of `initClient`: `CheckRedirect` and `Jar` are left
nil. -/
def newClient : Client := ⟨.nil, none⟩

/-- Go `(*auth).initClient`. -/
def auth.initClient (a : auth) : auth :=
  { a with Client := some newClient, userAgent := "hackney/1.17.0" }

/-- The call `a.Client.Do(req)`, with `c` the client `a.Client` points to. -/
def Client.Do (env : Env) (c : Tesla.Client) (tr : List Event) (req : Request) :
    Except GoError Response × List Event :=
  (env.ClientDo tr c.CheckRedirect req, tr ++ [Event.send c.CheckRedirect req])

/-! ## The flow (auth.go, lines 60-262)

Every function of the flow takes the events so far and gives them back
extended. `c` is the client `a.Client` points to; `Do` makes the pointer
non-nil before anything else. The context argument is not represented: a
cancelled context is one of the ways in which `NewRequest`, `ClientDo` or the
callback can fail. Closing a response body has no effect on the model. -/

/-- Go `codeFromResponse`. -/
def codeFromResponse (res : Response) : String × Option GoError :=
  match res.Location with
  | .error err => ("", some (.wrap "response location" err))
  | .ok u => (u.Query.Get "code", none)

/-- The error of `fmt.Errorf("unexpected status code %d", status)`. -/
def unexpectedStatus (status : Nat) : GoError :=
  .new ("unexpected status code " ++ toString status)

/-- The closure `login` runs on each selected hidden input (lines 142-152):
an input without a `name` or without a `value` attribute is skipped, another
one is `Set` into the values. -/
def setHidden (v : Values) (s : Node) : Values :=
  match s.attr "name" with
  | none => v
  | some name =>
    match s.attr "value" with
    | none => v
    | some value => Values.Set v name value

/-- Lines 132-152 of `login`: the values start as identity and credential,
then the closure runs on every selected hidden input in document order. -/
def loginForm (username password : String) (d : Document) : Values :=
  d.hiddenInputs.foldl setHidden [("identity", [username]), ("credential", [password])]

/-- The GET request of `login` (lines 116-120). -/
def auth.loginGet (a : auth) : Request :=
  ⟨"GET", .raw a.AuthURL, [("User-Agent", a.userAgent)], .none⟩

/-- The POST request of `login` (lines 154-159): its body is the encoding of
the form values `v`. -/
def auth.loginPost (a : auth) (v : Values) : Request :=
  ⟨"POST", .raw a.AuthURL,
    [("User-Agent", a.userAgent), ("Content-Type", "application/x-www-form-urlencoded")],
    .form v⟩

/-- The URL literal of `listDevices` (lines 166-171). -/
def factorsURL (transactionID : String) : Target :=
  .built "https" "auth.tesla.com" "oauth2/v3/authorize/mfa/factors"
    [("transaction_id", [transactionID])]

/-- The request of `listDevices` (lines 166-175). -/
def auth.listDevicesRequest (a : auth) (transactionID : String) : Request :=
  ⟨"GET", factorsURL transactionID, [("User-Agent", a.userAgent)], .none⟩

/-- The map `verify` encodes as JSON (lines 198-202). -/
def verifyBody (transactionID : String) (d : device) (passcode : String) :
    List (String × String) :=
  [("transaction_id", transactionID), ("factor_id", d.ID), ("passcode", passcode)]

/-- The request of `verify` (lines 206-211). -/
def auth.verifyRequest (a : auth) (transactionID : String) (d : device) (passcode : String) :
    Request :=
  ⟨"POST", .raw mfaVerifyURL,
    [("User-Agent", a.userAgent), ("Content-Type", "application/json")],
    .json (verifyBody transactionID d passcode)⟩

/-- The request of `commit` (lines 235-242): the form holds the transaction id
and nothing else. -/
def auth.commitRequest (a : auth) (transactionID : String) : Request :=
  ⟨"POST", .raw a.AuthURL,
    [("User-Agent", a.userAgent), ("Content-Type", "application/x-www-form-urlencoded")],
    .form [("transaction_id", [transactionID])]⟩

/-- Go `(*auth).login`. The last line returns the error of the POST as it
is, without a prefix. -/
def auth.login (env : Env) (a : auth) (c : Tesla.Client) (tr : List Event)
    (username password : String) : Except GoError (Response × Values) × List Event :=
  let tr := tr ++ [Event.call Fn.login]
  match env.NewRequest "GET" (.raw a.AuthURL) with
  | some err => (.error (.wrap "new request" err), tr)
  | none =>
    match c.Do env tr a.loginGet with
    | (.error err, tr) => (.error (.wrap "do" err), tr)
    | (.ok res, tr) =>
      if res.StatusCode != StatusOK then
        (.error (unexpectedStatus res.StatusCode), tr)
      else
        match res.Body.document with
        | .error err => (.error (.wrap "new document" err), tr)
        | .ok d =>
          let v := loginForm username password d
          match env.NewRequest "POST" (.raw a.AuthURL) with
          | some err => (.error (.wrap "new request" err), tr)
          | none =>
            match c.Do env tr (a.loginPost v) with
            | (.error err, tr) => (.error err, tr)
            | (.ok res, tr) => (.ok (res, v), tr)

/-- Go `(*auth).listDevices`. -/
def auth.listDevices (env : Env) (a : auth) (c : Tesla.Client) (tr : List Event)
    (transactionID : String) : Except GoError (List device) × List Event :=
  let tr := tr ++ [Event.call Fn.listDevices]
  match env.NewRequest "GET" (factorsURL transactionID) with
  | some err => (.error (.wrap "new request" err), tr)
  | none =>
    match c.Do env tr (a.listDevicesRequest transactionID) with
    | (.error err, tr) => (.error (.wrap "do" err), tr)
    | (.ok res, tr) =>
      if res.StatusCode != StatusOK then
        (.error (unexpectedStatus res.StatusCode), tr)
      else
        match res.Body.devices with
        | .error err => (.error (.wrap "json decode" err), tr)
        | .ok data => (.ok data, tr)

/-- Go `(*auth).verify`. -/
def auth.verify (env : Env) (a : auth) (c : Tesla.Client) (tr : List Event)
    (transactionID : String) (d : device) (passcode : String) : Option GoError × List Event :=
  let tr := tr ++ [Event.call Fn.verify]
  match env.jsonEncode (verifyBody transactionID d passcode) with
  | some err => (some (.wrap "json encode" err), tr)
  | none =>
    match env.NewRequest "POST" (.raw mfaVerifyURL) with
    | some err => (some (.wrap "new request" err), tr)
    | none =>
      match c.Do env tr (a.verifyRequest transactionID d passcode) with
      | (.error err, tr) => (some (.wrap "do" err), tr)
      | (.ok res, tr) =>
        match res.Body.approved with
        | .error err => (some (.wrap "json decode" err), tr)
        | .ok approved =>
          if !approved then (some (.new "not approved"), tr) else (none, tr)

/-- Go `(*auth).commit`. -/
def auth.commit (env : Env) (a : auth) (c : Tesla.Client) (tr : List Event)
    (transactionID : String) : (String × Option GoError) × List Event :=
  let tr := tr ++ [Event.call Fn.commit]
  match env.NewRequest "POST" (.raw a.AuthURL) with
  | some err => (("", some (.wrap "new request" err)), tr)
  | none =>
    match c.Do env tr (a.commitRequest transactionID) with
    | (.error err, tr) => (("", some (.wrap "do" err)), tr)
    | (.ok res, tr) =>
      if res.StatusCode != StatusFound then
        (("", some (unexpectedStatus res.StatusCode)), tr)
      else
        (codeFromResponse res, tr)

/-- Lines 61-76 of `Do`: the nil check of the client, the cookie jar, and the
installation of the no-follow policy. The result is the receiver, the client
as it stands when `login` is called, and the saved policy `cr`. -/
def auth.DoSetup (env : Env) (a : auth) : Except GoError (auth × Tesla.Client × CheckRedirectFn) :=
  let a := if a.Client.isNone then a.initClient else a
  let c := a.Client.getD newClient
  match c.Jar with
  | some jar => .ok (a, { CheckRedirect := .useLastResponse, Jar := some jar }, c.CheckRedirect)
  | none =>
    match env.cookiejarNew with
    | .error err => .error (.wrap "new cookie jar" err)
    | .ok jar => .ok (a, { CheckRedirect := .useLastResponse, Jar := some jar }, c.CheckRedirect)

/-- The return statements of `Do`, by what ends the run there: the cookie jar
(line 69), `login` (81), the code of a 302 answer to the form (88), the status
check of the form POST (90), `listDevices` (97), the empty device list (101),
the callback (106), `verify` (110), `commit` (112). -/
inductive Exit where
  | cookieJar
  | login
  | found
  | status
  | listDevices
  | noDevices
  | selectDevice
  | verify
  | commit
  deriving DecidableEq, Repr

/-- What the steps of `Do` give: the return statement taken, the two results
it returns, and the events of the run. -/
structure Outcome where
  exit : Exit
  code : String
  err : Option GoError
  trace : List Event

/-- Lines 79-112 of `Do`: the steps between the installation of the no-follow
policy and the deferred restoration. -/
def auth.DoSteps (env : Env) (a : auth) (c : Tesla.Client) (username password : String) :
    Outcome :=
  match a.login env c [] username password with
  | (.error err, tr) => ⟨.login, "", some (.wrap "login" err), tr⟩
  | (.ok (res, v), tr) =>
    if res.StatusCode = StatusOK then
      let transactionID := v.Get "transaction_id"
      match a.listDevices env c tr transactionID with
      | (.error err, tr) => ⟨.listDevices, "", some (.wrap "list devices" err), tr⟩
      | (.ok devices, tr) =>
        if devices.length = 0 then
          ⟨.noDevices, "", some (.new "no devices"), tr⟩
        else
          match a.SelectDevice devices, tr ++ [Event.selectDevice devices] with
          | (_, _, some err), tr => ⟨.selectDevice, "", some (.wrap "select device" err), tr⟩
          | (d, passcode, none), tr =>
            match a.verify env c tr transactionID d passcode with
            | (some err, tr) => ⟨.verify, "", some (.wrap "verify" err), tr⟩
            | (none, tr) =>
              match a.commit env c tr transactionID with
              | ((code, err), tr) => ⟨.commit, code, err, tr⟩
    else if res.StatusCode = StatusFound then
      match codeFromResponse res with
      | (code, err) => ⟨.found, code, err, tr⟩
    else
      ⟨.status, "", some (unexpectedStatus res.StatusCode), tr⟩

/-- What a call of `Do` leaves behind: the outcome of the run and the
receiver after the call. -/
structure DoResult extends Outcome where
  a : auth

/-- Go `(*auth).Do`. The deferred function of line 77 runs on every return
after it is registered and puts the saved policy back. -/
def auth.Do (env : Env) (a : auth) (username password : String) : DoResult :=
  match auth.DoSetup env a with
  | .error err =>
    ⟨⟨.cookieJar, "", some err, []⟩, if a.Client.isNone then a.initClient else a⟩
  | .ok (a, c, cr) =>
    ⟨auth.DoSteps env a c username password,
      { a with Client := some { c with CheckRedirect := cr } }⟩

/-! ## Vocabulary of the properties -/

/-- What an event of the steps of `Do` can be: the entry of a function, a
request sent under the policy of the client, or a call of the callback on the
non-empty list that `listDevices` returned after a 200 answer to the form. -/
def auth.StepEvent (env : Env) (a : auth) (c : Tesla.Client) (username password : String)
    (e : Event) : Prop :=
  (∃ fn, e = Event.call fn) ∨ (∃ req, e = Event.send c.CheckRedirect req) ∨
    ∃ ds, e = Event.selectDevice ds ∧ ds ≠ [] ∧
      ∃ res v tr1 tr2, a.login env c [] username password = (.ok (res, v), tr1) ∧
        res.StatusCode = StatusOK ∧
        a.listDevices env c tr1 (v.Get "transaction_id") = (.ok ds, tr2)

/-- Whether the closure of `login` sets the key `n` on the hidden input `s`:
the input is named `n` and has a value. -/
def Node.sets (s : Node) (n : String) : Bool :=
  s.attr "name" == some n && (s.attr "value").isSome

/-- The words an error message starts with, by the return statement of `Do`
that produced the error: the step name given to `fmt.Errorf` on lines 69, 81,
97, 106 and 110, the one `codeFromResponse` gives for line 88, the fixed part
of the message for lines 90 and 101. Nothing is recorded for line 112, which
returns what `commit` returned. -/
def Exit.name : Exit → String
  | .cookieJar => "new cookie jar"
  | .login => "login"
  | .found => "response location"
  | .status => "unexpected status code "
  | .listDevices => "list devices"
  | .noDevices => "no devices"
  | .selectDevice => "select device"
  | .verify => "verify"
  | .commit => ""

/-- Whether the error of a return statement of `Do` is a wrapped error
(`fmt.Errorf` with `%w`) rather than one made on the spot. -/
def Exit.wraps : Exit → Bool
  | .cookieJar | .login | .found | .listDevices | .selectDevice | .verify => true
  | .status | .noDevices | .commit => false

/-! ## Example worlds

Concrete servers and receivers on which the flow is run. -/

/-- A body that none of the decoders accepts. -/
def noBody : ResponseBody :=
  ⟨.error (.new "EOF"), .error (.new "EOF"), .error (.new "EOF")⟩

/-- A response with a status, no `Location` header and an unreadable body. -/
def statusOnly (status : Nat) : Response := ⟨status, .missing, noBody⟩

/-- A 200 response whose body is the HTML document `d`. -/
def htmlPage (d : Document) : Response :=
  ⟨200, .missing, { noBody with document := .ok d }⟩

/-- A 200 response whose body is the JSON `{"data": [...]}` listing `ds`. -/
def factorsJSON (ds : List device) : Response :=
  ⟨200, .missing, { noBody with devices := .ok ds }⟩

/-- A 200 response whose body is the JSON `{"data": {"approved": b}}`. -/
def approvedJSON (b : Bool) : Response :=
  ⟨200, .missing, { noBody with approved := .ok b }⟩

/-- A 302 response whose `Location` is a URL with the query `q`. -/
def redirectTo (q : Values) : Response := ⟨302, .url ⟨q⟩, noBody⟩

/-- Whether an event is a request. -/
def Event.isSend : Event → Bool
  | .send _ _ => true
  | _ => false

/-- A server that answers the n-th request of a run with the n-th entry of
`answers`, whatever the request, and drops the connection after the last. -/
def scripted (answers : List (Except GoError Response)) : Env where
  cookiejarNew := .ok ⟨0⟩
  NewRequest := fun _ _ => none
  jsonEncode := fun _ => none
  ClientDo := fun tr _ _ => (answers.get? (tr.countP Event.isSend)).getD (.error (.new "EOF"))

/-- A hidden input with a name and a value. -/
def hidden (name value : String) : Node :=
  ⟨"input", [("type", "hidden"), ("name", name), ("value", value)]⟩

/-- A login page in the shape the provider serves: visible inputs for the
credentials, hidden inputs for the anti-forgery token and the transaction. -/
def samplePage : Document :=
  [⟨"form", [("method", "post")]⟩,
   hidden "_csrf" "abc",
   hidden "transaction_id" "tx1",
   ⟨"input", [("type", "email"), ("name", "identity")]⟩,
   ⟨"input", [("type", "password"), ("name", "credential")]⟩]

/-- One enrolled device. -/
def phone : device :=
  ⟨false, "f-1", "Phone", "token:software", "TESLA", 1, "2020-12-01T10:00:00.000Z",
    "2020-12-01T10:05:00.000Z"⟩

/-- A callback that takes the first device and the passcode given (what
`selectDevice` of main.go does with a single device). -/
def pickFirst (passcode : String) (devices : List device) : device × String × Option GoError :=
  (devices.headD default, passcode, none)

/-- A receiver as the `login` command builds it: no client, a callback. -/
def freshAuth : auth :=
  ⟨none, "https://auth.tesla.com/oauth2/v3/authorize", pickFirst "123456", ""⟩

/-- A receiver whose client already has a policy of its owner and a jar. -/
def ownedAuth : auth :=
  ⟨some ⟨.custom 7, some ⟨3⟩⟩, "https://auth.tesla.com/oauth2/v3/authorize",
    pickFirst "123456", "curl/8"⟩

/-- The server of the run without MFA: the login page, then a redirect that
carries the code. -/
def noMFAServer : Env :=
  scripted [.ok (htmlPage samplePage), .ok (redirectTo [("code", ["XYZ123"])])]

/-- The server of the run with MFA: the login page, 200 to the form, one
device, approval, then a redirect that carries the code. -/
def mfaServer : Env :=
  scripted [.ok (htmlPage samplePage), .ok (htmlPage []), .ok (factorsJSON [phone]),
    .ok (approvedJSON true), .ok (redirectTo [("code", ["OK1"])])]

/-- The events of a successful `login` of the receiver `a` on the sample page. -/
def sampleLoginTrace (a : auth) (username password : String) : List Event :=
  [.call .login, .send .useLastResponse a.loginGet,
   .send .useLastResponse (a.loginPost (loginForm username password samplePage))]

/-- The server that lists one device and then refuses the passcode. -/
def refusingServer : Env :=
  scripted [.ok (htmlPage samplePage), .ok (htmlPage []), .ok (factorsJSON [phone]),
    .ok (approvedJSON false), .ok (redirectTo [("code", ["NEVER"])])]

/-- The server that answers 200 to the form and lists no device. -/
def noDeviceServer : Env :=
  scripted [.ok (htmlPage samplePage), .ok (htmlPage []), .ok (factorsJSON []),
    .ok (approvedJSON true), .ok (redirectTo [("code", ["NEVER"])])]

/-- The events of a successful `listDevices` after `tr`. -/
def sampleListTrace (a : auth) (tr : List Event) (transactionID : String) : List Event :=
  tr ++ [.call .listDevices, .send .useLastResponse (a.listDevicesRequest transactionID)]

/-- A login page that carries hidden inputs named like the credentials. -/
def forgedPage : Document :=
  [hidden "identity" "mallory", hidden "_csrf" "abc", hidden "credential" "hunter2"]

/-- The server that serves the forged page and then answers 200. -/
def forgedServer : Env :=
  scripted [.ok (htmlPage forgedPage), .ok (htmlPage [])]

/-- The hidden inputs of the form example: `_csrf=abc`, `form_key=v`. -/
def csrfPage : Document := [hidden "_csrf" "abc", hidden "form_key" "v"]

/-- The server that serves the form example and then answers 200. -/
def csrfServer : Env :=
  scripted [.ok (htmlPage csrfPage), .ok (htmlPage [])]

/-- A page that repeats a hidden input. -/
def repeatedPage : Document :=
  [hidden "_phase" "first", ⟨"input", [("type", "text"), ("name", "_phase"), ("value", "no")]⟩,
   hidden "_phase" "second"]

/-- The server whose answer to the form is 500. -/
def formFailsServer : Env :=
  scripted [.ok (htmlPage samplePage), .ok (statusOnly 500)]

/-- The server that goes through MFA and answers 500 to the commit. -/
def commitFailsServer : Env :=
  scripted [.ok (htmlPage samplePage), .ok (htmlPage []), .ok (factorsJSON [phone]),
    .ok (approvedJSON true), .ok (statusOnly 500)]

/-- The server whose 302 answer to the form has no `Location`. -/
def formNoLocationServer : Env :=
  scripted [.ok (htmlPage samplePage), .ok (statusOnly 302)]

/-- The server that goes through MFA and answers the commit with a 302
without `Location`. -/
def commitNoLocationServer : Env :=
  scripted [.ok (htmlPage samplePage), .ok (htmlPage []), .ok (factorsJSON [phone]),
    .ok (approvedJSON true), .ok (statusOnly 302)]

/-- The server whose device listing is answered 500. -/
def listFailsServer : Env :=
  scripted [.ok (htmlPage samplePage), .ok (htmlPage []), .ok (statusOnly 500)]

/-- The server whose redirect has a query without `code`. -/
def noCodeServer : Env :=
  scripted [.ok (htmlPage samplePage), .ok (redirectTo [("state", ["s1"])])]

/-- The server that goes through MFA and whose final redirect has a query
without `code`. -/
def noCodeCommitServer : Env :=
  scripted [.ok (htmlPage samplePage), .ok (htmlPage []), .ok (factorsJSON [phone]),
    .ok (approvedJSON true), .ok (redirectTo [("state", ["s1"])])]

/-! ## The `login` command (main.go, lines 46-58 and 234-274)

The terminal behind `promptui` and the library `oauth2` are inputs of the
model. -/

/-- A `cli.Context`, seen through its string flags: the flags given on the
command line with their values. -/
structure Context where
  flags : List (String × String)
  deriving DecidableEq, Repr

/-- Go `(*cli.Context).String`: the value of the flag `name`, the empty string
when the flag was not given. -/
def Context.String (c : Context) (name : String) : String :=
  (c.flags.lookup name).getD ""

/-- The closure `promptField` gives as `Validate`: the empty input is
refused. -/
def promptValidate (s : String) : Option GoError :=
  if s.length = 0 then some (.new "len(s) == 0") else none

/-- The fields of the `promptui.Prompt` that `promptField` builds; `Mask` is
`none` for the zero rune. The field `Pointer` is the constant
`promptui.PipeCursor`. -/
structure Prompt where
  Label : String
  Mask : Option Char
  Validate : String → Option GoError

/-- The terminal: what `Prompt.Run` returns for a prompt, given the prompts
asked before. -/
abbrev Terminal := List Prompt → Prompt → String × Option GoError

/-- Go `promptField` (main.go, lines 234-254). `asked` holds the prompts run so
far and is given back extended. Line 235 reads the flag `username` whatever
`field` is; `field` only decides the mask. -/
def promptField (ui : Terminal) (asked : List Prompt) (c : Context) (field label : String) :
    (String × Option GoError) × List Prompt :=
  let value := c.String "username"
  if value != "" then
    ((value, none), asked)
  else
    let prompt : Prompt :=
      ⟨label, if field == "password" then some '*' else none, promptValidate⟩
    (ui asked prompt, asked ++ [prompt])

/-- Go `oauthState` (auth.go, lines 264-270): `random` is what
`io.ReadFull(rand.Reader, b[:])` does to the 9-byte array; the error case is
the panic. -/
def oauthState (random : Except GoError (List Nat)) : Except GoError String :=
  match random with
  | .error err => .error err
  | .ok b => .ok (EncodeToString b)

/-- How `login` of main.go gets to line 274: it returns an error before, it
panics in `oauthState`, or it calls `Do` on a receiver with the credentials
given (`verifier` is kept for the exchange that follows). -/
inductive LoginCall where
  | failed (err : GoError) (asked : List Prompt)
  | panicked (err : GoError) (asked : List Prompt)
  | Do (a : auth) (username password verifier : String) (asked : List Prompt)

/-- Lines 256-274 of `login` (main.go): the two fields, the PKCE pair, the
receiver literal and the call of `Do`. `AuthCodeURL` is
`tesla.OAuth2Config.AuthCodeURL` applied to the state and to the URL
parameters set by the options; `selectDevice` is the callback of main.go. -/
def login (ui : Terminal) (pkceRandom stateRandom : Except GoError (List Nat))
    (AuthCodeURL : String → List (String × String) → String)
    (selectDevice : List device → device × String × Option GoError)
    (c : Context) : LoginCall :=
  match promptField ui [] c "username" "Username" with
  | ((_, some err), asked) => .failed err asked
  | ((username, none), asked) =>
    match promptField ui asked c "password" "Password" with
    | ((_, some err), asked) => .failed err asked
    | ((password, none), asked) =>
      match pkce Sum256 pkceRandom with
      | (_, _, some err) => .failed (.wrap "pkce" err) asked
      | (verifier, challenge, none) =>
        match oauthState stateRandom with
        | .error err => .panicked err asked
        | .ok state =>
          .Do
            ⟨none,
             AuthCodeURL state
               [("access_type", "offline"), ("code_challenge", challenge),
                ("code_challenge_method", "S256")],
             selectDevice, ""⟩
            username password verifier asked

/-- The credentials a run of `login` hands to `Do`, when it gets there. -/
def LoginCall.credentials : LoginCall → Option (String × String)
  | .Do _ username password _ _ => some (username, password)
  | _ => none

/-- The labels of the prompts a run of `login` asked. -/
def LoginCall.labels : LoginCall → List String
  | .failed _ asked => asked.map Prompt.Label
  | .panicked _ asked => asked.map Prompt.Label
  | .Do _ _ _ _ asked => asked.map Prompt.Label

/-- A user who types the n-th entry of `answers` at the n-th prompt and
interrupts the prompts after the last. -/
def typist (answers : List String) : Terminal :=
  fun asked _ =>
    match answers.get? asked.length with
    | some s => (s, none)
    | none => ("", some (.new "^C"))

/-- The command line `tesla login --username alice --password secret`. -/
def bothFlags : Context := ⟨[("username", "alice"), ("password", "secret")]⟩

/-- The command line `tesla login --password secret`. -/
def passwordFlag : Context := ⟨[("password", "secret")]⟩

/-- An `AuthCodeURL` that keeps the state and the challenge visible. -/
def sampleAuthCodeURL (state : String) (params : List (String × String)) : String :=
  "https://auth.tesla.com/oauth2/v3/authorize?state=" ++ state ++ "&code_challenge=" ++
    ((params.lookup "code_challenge").getD "")

/-! ## Facts about single functions -/

/-- The challenge does not depend on the random bytes. -/
theorem pkce_challenge_const (sum256 : List Nat → List Nat) (p : List Nat) :
    (pkce sum256 (.ok p)).2.1 = EncodeToString (sum256 []) := rfl

/-- What a successful `login` did: both requests were created and answered,
the page had status 200 and parsed, the values returned are those posted. -/
theorem auth.login_ok {env : Env} {a : auth} {c : Tesla.Client} {tr tr' : List Event}
    {username password : String} {res : Response} {v : Values}
    (h : a.login env c tr username password = (.ok (res, v), tr')) :
    ∃ page d,
      env.ClientDo (tr ++ [Event.call Fn.login]) c.CheckRedirect a.loginGet = .ok page ∧
      page.StatusCode = StatusOK ∧
      page.Body.document = .ok d ∧
      v = loginForm username password d ∧
      env.NewRequest "POST" (.raw a.AuthURL) = none ∧
      env.ClientDo (tr ++ [Event.call Fn.login] ++ [Event.send c.CheckRedirect a.loginGet])
        c.CheckRedirect (a.loginPost v) = .ok res ∧
      tr' = tr ++ [Event.call Fn.login] ++ [Event.send c.CheckRedirect a.loginGet] ++
        [Event.send c.CheckRedirect (a.loginPost v)] := by
  unfold auth.login at h
  simp only [Client.Do] at h
  split at h
  · simp at h
  · split at h
    · simp at h
    · rename_i page tr1 hget
      split at h
      · simp at h
      · rename_i hstatus
        split at h
        · simp at h
        · rename_i d hd
          split at h
          · simp at h
          · rename_i hnew
            split at h
            · simp at h
            · rename_i res' tr2 hpost
              simp only [Prod.mk.injEq, Except.ok.injEq] at h hget hpost
              obtain ⟨⟨rfl, rfl⟩, rfl⟩ := h
              obtain ⟨hget, rfl⟩ := hget
              obtain ⟨hpost, rfl⟩ := hpost
              refine ⟨page, d, hget, ?_, hd, rfl, hnew, hpost, rfl⟩
              simpa using hstatus

/-- The first value bound to a key is what `Get` returns. -/
theorem Values.Get_of_lookup {v : Values} {key x : String} {rest : List String}
    (h : v.lookup key = some (x :: rest)) : Values.Get v key = x := by
  simp [Values.Get, h]

/-- A URL whose query has `x` as first value of `code` yields `x`. -/
theorem codeFromResponse_of_code {res : Response} {u : URL} {x : String} {rest : List String}
    (hloc : res.Header = .url u) (hcode : u.Query.lookup "code" = some (x :: rest)) :
    codeFromResponse res = (x, none) := by
  simp [codeFromResponse, Response.Location, hloc, Values.Get_of_lookup hcode]

/-! ## Events of a run -/

theorem auth.login_events (env : Env) (a : auth) (c : Tesla.Client) (tr : List Event)
    (username password : String) :
    ∀ e ∈ (a.login env c tr username password).2,
      e ∈ tr ∨ e = Event.call Fn.login ∨ ∃ req, e = Event.send c.CheckRedirect req := by
  unfold auth.login
  simp only [Client.Do]
  intro e he
  repeat' split at he
  all_goals simp_all
  all_goals aesop

theorem auth.listDevices_events (env : Env) (a : auth) (c : Tesla.Client) (tr : List Event)
    (transactionID : String) :
    ∀ e ∈ (a.listDevices env c tr transactionID).2,
      e ∈ tr ∨ e = Event.call Fn.listDevices ∨ ∃ req, e = Event.send c.CheckRedirect req := by
  unfold auth.listDevices
  simp only [Client.Do]
  intro e he
  repeat' split at he
  all_goals simp_all
  all_goals aesop

theorem auth.verify_events (env : Env) (a : auth) (c : Tesla.Client) (tr : List Event)
    (transactionID : String) (d : device) (passcode : String) :
    ∀ e ∈ (a.verify env c tr transactionID d passcode).2,
      e ∈ tr ∨ e = Event.call Fn.verify ∨ ∃ req, e = Event.send c.CheckRedirect req := by
  unfold auth.verify
  simp only [Client.Do]
  intro e he
  repeat' split at he
  all_goals simp_all
  all_goals aesop

theorem auth.commit_events (env : Env) (a : auth) (c : Tesla.Client) (tr : List Event)
    (transactionID : String) :
    ∀ e ∈ (a.commit env c tr transactionID).2,
      e ∈ tr ∨ e = Event.call Fn.commit ∨ ∃ req, e = Event.send c.CheckRedirect req := by
  unfold auth.commit
  simp only [Client.Do]
  intro e he
  repeat' split at he
  all_goals simp_all
  all_goals aesop

theorem auth.listDevices_ok {env : Env} {a : auth} {c : Tesla.Client} {tr tr' : List Event}
    {transactionID : String} {devices : List device}
    (h : a.listDevices env c tr transactionID = (.ok devices, tr')) :
    tr' = tr ++ [Event.call Fn.listDevices] ++
      [Event.send c.CheckRedirect (a.listDevicesRequest transactionID)] := by
  unfold auth.listDevices at h
  simp only [Client.Do] at h
  repeat' split at h
  all_goals simp_all

theorem auth.StepEvent.of_events {env : Env} {a : auth} {c : Tesla.Client}
    {username password : String} {e : Event} {tr : List Event} {fn : Fn}
    (ih : e ∈ tr → auth.StepEvent env a c username password e)
    (h : e ∈ tr ∨ e = Event.call fn ∨ ∃ req, e = Event.send c.CheckRedirect req) :
    auth.StepEvent env a c username password e := by
  rcases h with h | h | h
  · exact ih h
  · exact Or.inl ⟨fn, h⟩
  · exact Or.inr (Or.inl h)

/-- Every event of the steps of `Do` is a `StepEvent`. -/
theorem auth.DoSteps_events (env : Env) (a : auth) (c : Tesla.Client)
    (username password : String) :
    ∀ e ∈ (auth.DoSteps env a c username password).trace,
      auth.StepEvent env a c username password e := by
  intro e he
  have h1 : ∀ {tr1 : List Event} {r}, a.login env c [] username password = (r, tr1) →
      e ∈ tr1 → auth.StepEvent env a c username password e := by
    intro tr1 r hr hmem
    have := auth.login_events env a c [] username password e (by rw [hr]; exact hmem)
    exact auth.StepEvent.of_events (fun h => absurd h (List.not_mem_nil e)) this
  unfold auth.DoSteps at he
  rcases hl : a.login env c [] username password with ⟨_ | ⟨res, v⟩, tr1⟩
  · rw [hl] at he
    exact h1 hl he
  · rw [hl] at he
    try simp only at he
    by_cases hs : res.StatusCode = StatusOK
    · rw [if_pos hs] at he
      try simp only at he
      have h2 : ∀ {tr2 : List Event} {r},
          a.listDevices env c tr1 (v.Get "transaction_id") = (r, tr2) →
          e ∈ tr2 → auth.StepEvent env a c username password e := by
        intro tr2 r hr hmem
        have := auth.listDevices_events env a c tr1 (v.Get "transaction_id") e
          (by rw [hr]; exact hmem)
        exact auth.StepEvent.of_events (h1 hl) this
      rcases hd : a.listDevices env c tr1 (v.Get "transaction_id") with ⟨_ | devices, tr2⟩
      · rw [hd] at he
        exact h2 hd he
      · rw [hd] at he
        try simp only at he
        by_cases hz : devices.length = 0
        · rw [if_pos hz] at he
          exact h2 hd he
        · rw [if_neg hz] at he
          have hne : devices ≠ [] := fun h => hz (by rw [h]; rfl)
          have h3 : e ∈ tr2 ++ [Event.selectDevice devices] →
              auth.StepEvent env a c username password e := by
            intro hmem
            rcases List.mem_append.1 hmem with h | h
            · exact h2 hd h
            · rw [List.mem_singleton] at h
              exact Or.inr (Or.inr ⟨devices, h, hne, res, v, tr1, tr2, hl, hs, hd⟩)
          rcases hsel : a.SelectDevice devices with ⟨d, passcode, _ | err⟩
          · rw [hsel] at he
            try simp only at he
            have hv := auth.verify_events env a c (tr2 ++ [Event.selectDevice devices])
              (v.Get "transaction_id") d passcode
            rcases hver : a.verify env c (tr2 ++ [Event.selectDevice devices])
              (v.Get "transaction_id") d passcode with ⟨_ | err, tr3⟩
            · rw [hver] at he hv
              try simp only at he
              have hc := auth.commit_events env a c tr3 (v.Get "transaction_id") e he
              exact auth.StepEvent.of_events (fun h => auth.StepEvent.of_events h3 (hv e h)) hc
            · rw [hver] at he hv
              exact auth.StepEvent.of_events h3 (hv e he)
          · rw [hsel] at he
            exact h3 he
    · rw [if_neg hs] at he
      by_cases hf : res.StatusCode = StatusFound
      · rw [if_pos hf] at he
        exact h1 hl he
      · rw [if_neg hf] at he
        exact h1 hl he

/-! ## The PKCE challenge and the runs of `Do` -/

set_option maxRecDepth 100000 in
/-- C1 (the code departs from the claim): whatever the 87 random bytes,
`pkce` returns the challenge `47DEQpj8HBSa-_TImW-5JCeuQeRkm5NMpJWZG3hSuFU`,
the encoding of the SHA-256 digest of the empty string; for the random bytes
87 times zero this is not the encoding of the digest of the bytes of the
verifier returned with it. -/
theorem pkce_challenge_hashes_empty_string :
    (∀ p : List Nat, (pkce Sum256 (.ok p)).2.1 = "47DEQpj8HBSa-_TImW-5JCeuQeRkm5NMpJWZG3hSuFU") ∧
    (pkce Sum256 (.ok (List.replicate 87 0))).1 = EncodeToString (List.replicate 87 0) ∧
    (pkce Sum256 (.ok (List.replicate 87 0))).2.2 = none ∧
    EncodeToString (Sum256 (stringBytes (pkce Sum256 (.ok (List.replicate 87 0))).1)) =
      "zyBQEUzK79ig6mzzHYXgIy6tyP1hJ3_xZJbSI0tVx9c" ∧
    (pkce Sum256 (.ok (List.replicate 87 0))).2.1 ≠
      EncodeToString (Sum256 (stringBytes (pkce Sum256 (.ok (List.replicate 87 0))).1)) := by
  refine ⟨fun p => ?_, rfl, rfl, by decide, by decide⟩
  rw [pkce_challenge_const]
  decide

/-- C2: when the form POST of `login` is answered with status 302 and a
`Location` whose URL has `C` as first value of the query parameter `code`,
`Do` returns `(C, nil)`; the run consists of the entry of `login` and its two
requests, so `listDevices`, the `SelectDevice` callback, `verify` and
`commit` are not invoked. -/
theorem Do_found_returns_code (env : Env) (a a' : auth) (c : Tesla.Client)
    (cr : CheckRedirectFn) (username password : String) (res : Response) (v : Values)
    (tr : List Event) (u : URL) (C : String) (rest : List String)
    (hsetup : auth.DoSetup env a = .ok (a', c, cr))
    (hlogin : a'.login env c [] username password = (.ok (res, v), tr))
    (hstatus : res.StatusCode = 302)
    (hloc : res.Header = .url u)
    (hcode : u.Query.lookup "code" = some (C :: rest)) :
    (a.Do env username password).code = C ∧
    (a.Do env username password).err = none ∧
    (a.Do env username password).trace =
      [Event.call Fn.login, Event.send c.CheckRedirect a'.loginGet,
       Event.send c.CheckRedirect (a'.loginPost v)] ∧
    Event.call Fn.listDevices ∉ (a.Do env username password).trace ∧
    (∀ ds, Event.selectDevice ds ∉ (a.Do env username password).trace) ∧
    Event.call Fn.verify ∉ (a.Do env username password).trace ∧
    Event.call Fn.commit ∉ (a.Do env username password).trace := by
  obtain ⟨page, d, -, -, -, -, -, -, htr⟩ := auth.login_ok hlogin
  have hD : (a.Do env username password).trace = tr ∧
      (a.Do env username password).code = C ∧ (a.Do env username password).err = none := by
    simp [auth.Do, hsetup, auth.DoSteps, hlogin, hstatus, StatusOK, StatusFound,
      codeFromResponse_of_code hloc hcode]
  obtain ⟨h1, h2, h3⟩ := hD
  rw [h1, htr]
  refine ⟨h2, h3, by simp, by simp, by simp, by simp, by simp⟩

/-- Witness for C2: the fresh receiver against the server that answers the
form with a redirect to `?code=XYZ123`. -/
theorem Do_found_returns_code_witness :
    (freshAuth.Do noMFAServer "alice" "secret").code = "XYZ123" ∧
    (freshAuth.Do noMFAServer "alice" "secret").err = none ∧
    (freshAuth.Do noMFAServer "alice" "secret").trace =
      [Event.call Fn.login, Event.send .useLastResponse freshAuth.initClient.loginGet,
       Event.send .useLastResponse
         (freshAuth.initClient.loginPost (loginForm "alice" "secret" samplePage))] ∧
    Event.call Fn.listDevices ∉ (freshAuth.Do noMFAServer "alice" "secret").trace ∧
    (∀ ds, Event.selectDevice ds ∉ (freshAuth.Do noMFAServer "alice" "secret").trace) ∧
    Event.call Fn.verify ∉ (freshAuth.Do noMFAServer "alice" "secret").trace ∧
    Event.call Fn.commit ∉ (freshAuth.Do noMFAServer "alice" "secret").trace :=
  Do_found_returns_code noMFAServer freshAuth freshAuth.initClient
    ⟨.useLastResponse, some ⟨0⟩⟩ .nil "alice" "secret" (redirectTo [("code", ["XYZ123"])])
    (loginForm "alice" "secret" samplePage)
    [Event.call Fn.login, Event.send .useLastResponse freshAuth.initClient.loginGet,
       Event.send .useLastResponse
         (freshAuth.initClient.loginPost (loginForm "alice" "secret" samplePage))]
    ⟨[("code", ["XYZ123"])]⟩ "XYZ123" [] rfl rfl rfl rfl rfl

/-- C3: when the form POST is answered 200, `listDevices` returns a non-empty
list, the callback returns `(d, passcode, nil)`, the verify request is
answered with `approved` true and the commit request is answered 302 with a
`Location` whose URL has `C` as first value of `code`, `Do` returns
`(C, nil)`. -/
theorem Do_mfa_returns_code (env : Env) (a a' : auth) (c : Tesla.Client)
    (cr : CheckRedirectFn) (username password : String) (res : Response) (v : Values)
    (tr1 tr2 : List Event) (devices : List device) (d : device) (passcode : String)
    (vres cres : Response) (u : URL) (C : String) (rest : List String)
    (hsetup : auth.DoSetup env a = .ok (a', c, cr))
    (hlogin : a'.login env c [] username password = (.ok (res, v), tr1))
    (hstatus : res.StatusCode = 200)
    (hlist : a'.listDevices env c tr1 (v.Get "transaction_id") = (.ok devices, tr2))
    (hne : devices ≠ [])
    (hselect : a'.SelectDevice devices = (d, passcode, none))
    (hjson : env.jsonEncode (verifyBody (v.Get "transaction_id") d passcode) = none)
    (hreq : env.NewRequest "POST" (.raw mfaVerifyURL) = none)
    (hverify : env.ClientDo (tr2 ++ [Event.selectDevice devices, Event.call Fn.verify])
      c.CheckRedirect (a'.verifyRequest (v.Get "transaction_id") d passcode) = .ok vres)
    (happroved : vres.Body.approved = .ok true)
    (hcommit : env.ClientDo
      (tr2 ++ [Event.selectDevice devices, Event.call Fn.verify,
        Event.send c.CheckRedirect (a'.verifyRequest (v.Get "transaction_id") d passcode),
        Event.call Fn.commit])
      c.CheckRedirect (a'.commitRequest (v.Get "transaction_id")) = .ok cres)
    (hfound : cres.StatusCode = 302)
    (hloc : cres.Header = .url u)
    (hcode : u.Query.lookup "code" = some (C :: rest)) :
    (a.Do env username password).code = C ∧
    (a.Do env username password).err = none ∧
    (a.Do env username password).trace =
      tr2 ++ [Event.selectDevice devices, Event.call Fn.verify,
        Event.send c.CheckRedirect (a'.verifyRequest (v.Get "transaction_id") d passcode),
        Event.call Fn.commit,
        Event.send c.CheckRedirect (a'.commitRequest (v.Get "transaction_id"))] := by
  obtain ⟨page, doc, -, -, -, -, hpost, -, -⟩ := auth.login_ok hlogin
  simp [auth.Do, hsetup, auth.DoSteps, hlogin, hstatus, StatusOK, StatusFound, hlist, hne,
    hselect, auth.verify, hjson, hreq, Client.Do, hverify, happroved, auth.commit, hpost,
    hcommit, hfound, codeFromResponse_of_code hloc hcode]

/-- Witness for C3: one device, passcode `123456`, code `OK1`. -/
theorem Do_mfa_returns_code_witness :
    (freshAuth.Do mfaServer "alice" "secret").code = "OK1" ∧
    (freshAuth.Do mfaServer "alice" "secret").err = none ∧
    (freshAuth.Do mfaServer "alice" "secret").trace =
      sampleListTrace freshAuth.initClient
          (sampleLoginTrace freshAuth.initClient "alice" "secret") "tx1" ++
        [Event.selectDevice [phone], Event.call Fn.verify,
         Event.send .useLastResponse (freshAuth.initClient.verifyRequest "tx1" phone "123456"),
         Event.call Fn.commit,
         Event.send .useLastResponse (freshAuth.initClient.commitRequest "tx1")] :=
  Do_mfa_returns_code mfaServer freshAuth freshAuth.initClient
    ⟨.useLastResponse, some ⟨0⟩⟩ .nil "alice" "secret" (htmlPage [])
    (loginForm "alice" "secret" samplePage)
    (sampleLoginTrace freshAuth.initClient "alice" "secret")
    (sampleListTrace freshAuth.initClient
      (sampleLoginTrace freshAuth.initClient "alice" "secret") "tx1")
    [phone] phone "123456" (approvedJSON true) (redirectTo [("code", ["OK1"])])
    ⟨[("code", ["OK1"])]⟩ "OK1" []
    rfl rfl rfl rfl (by decide) rfl rfl rfl rfl rfl rfl rfl rfl rfl

/-- C4: when the response to the verify request decodes to `approved` false,
`Do` returns the empty code and the error `verify: not approved`; the run
ends with the one verify request: `commit` is not entered, no request follows
and `verify` is entered once. -/
theorem Do_not_approved (env : Env) (a a' : auth) (c : Tesla.Client)
    (cr : CheckRedirectFn) (username password : String) (res : Response) (v : Values)
    (tr1 tr2 : List Event) (devices : List device) (d : device) (passcode : String)
    (vres : Response)
    (hsetup : auth.DoSetup env a = .ok (a', c, cr))
    (hlogin : a'.login env c [] username password = (.ok (res, v), tr1))
    (hstatus : res.StatusCode = 200)
    (hlist : a'.listDevices env c tr1 (v.Get "transaction_id") = (.ok devices, tr2))
    (hne : devices ≠ [])
    (hselect : a'.SelectDevice devices = (d, passcode, none))
    (hjson : env.jsonEncode (verifyBody (v.Get "transaction_id") d passcode) = none)
    (hreq : env.NewRequest "POST" (.raw mfaVerifyURL) = none)
    (hverify : env.ClientDo (tr2 ++ [Event.selectDevice devices, Event.call Fn.verify])
      c.CheckRedirect (a'.verifyRequest (v.Get "transaction_id") d passcode) = .ok vres)
    (hrefused : vres.Body.approved = .ok false) :
    (a.Do env username password).code = "" ∧
    (a.Do env username password).err = some (.wrap "verify" (.new "not approved")) ∧
    ((a.Do env username password).err.map GoError.Error) = some "verify: not approved" ∧
    (a.Do env username password).trace =
      [Event.call Fn.login, Event.send c.CheckRedirect a'.loginGet,
       Event.send c.CheckRedirect (a'.loginPost v),
       Event.call Fn.listDevices,
       Event.send c.CheckRedirect (a'.listDevicesRequest (v.Get "transaction_id")),
       Event.selectDevice devices, Event.call Fn.verify,
       Event.send c.CheckRedirect (a'.verifyRequest (v.Get "transaction_id") d passcode)] ∧
    Event.call Fn.commit ∉ (a.Do env username password).trace ∧
    (a.Do env username password).trace.count (Event.call Fn.verify) = 1 := by
  obtain ⟨page, doc, -, -, -, -, -, -, htr1⟩ := auth.login_ok hlogin
  have htr2 := auth.listDevices_ok hlist
  have hD : (a.Do env username password).code = "" ∧
      (a.Do env username password).err = some (.wrap "verify" (.new "not approved")) ∧
      (a.Do env username password).trace = tr2 ++ [Event.selectDevice devices,
        Event.call Fn.verify,
        Event.send c.CheckRedirect (a'.verifyRequest (v.Get "transaction_id") d passcode)] := by
    simp [auth.Do, hsetup, auth.DoSteps, hlogin, hstatus, StatusOK, hlist, hne,
      hselect, auth.verify, hjson, hreq, Client.Do, hverify, hrefused]
  obtain ⟨h1, h2, h3⟩ := hD
  rw [h3, h2, h1, htr2, htr1]
  refine ⟨rfl, rfl, ?_, by simp, by simp, ?_⟩
  · simp [GoError.Error]
  · simp [List.count_cons, List.count_nil]

/-- Witness for C4: the server lists one device and refuses the passcode. -/
theorem Do_not_approved_witness :
    (freshAuth.Do refusingServer "alice" "secret").code = "" ∧
    (freshAuth.Do refusingServer "alice" "secret").err =
      some (.wrap "verify" (.new "not approved")) ∧
    ((freshAuth.Do refusingServer "alice" "secret").err.map GoError.Error) =
      some "verify: not approved" ∧
    (freshAuth.Do refusingServer "alice" "secret").trace =
      [Event.call Fn.login, Event.send .useLastResponse freshAuth.initClient.loginGet,
       Event.send .useLastResponse
         (freshAuth.initClient.loginPost (loginForm "alice" "secret" samplePage)),
       Event.call Fn.listDevices,
       Event.send .useLastResponse (freshAuth.initClient.listDevicesRequest
         (Values.Get (loginForm "alice" "secret" samplePage) "transaction_id")),
       Event.selectDevice [phone], Event.call Fn.verify,
       Event.send .useLastResponse (freshAuth.initClient.verifyRequest
         (Values.Get (loginForm "alice" "secret" samplePage) "transaction_id")
         phone "123456")] ∧
    Event.call Fn.commit ∉ (freshAuth.Do refusingServer "alice" "secret").trace ∧
    (freshAuth.Do refusingServer "alice" "secret").trace.count (Event.call Fn.verify) = 1 :=
  Do_not_approved refusingServer freshAuth freshAuth.initClient
    ⟨.useLastResponse, some ⟨0⟩⟩ .nil "alice" "secret" (htmlPage [])
    (loginForm "alice" "secret" samplePage)
    (sampleLoginTrace freshAuth.initClient "alice" "secret")
    (sampleListTrace freshAuth.initClient
      (sampleLoginTrace freshAuth.initClient "alice" "secret") "tx1")
    [phone] phone "123456" (approvedJSON false)
    rfl rfl rfl rfl (by decide) rfl rfl rfl rfl rfl

/-- C5: when the form POST is answered 200 and `listDevices` succeeds with
the empty list, `Do` fails with the error `no devices` and the run ends with
the request of `listDevices`: the callback, `verify` and `commit` are not
invoked. And in every run, a call of the callback is on a non-empty list, the
one `listDevices` returned. -/
theorem Do_no_devices (env : Env) (a : auth) (username password : String) :
    (∀ a' c cr res v tr1 tr2,
      auth.DoSetup env a = .ok (a', c, cr) →
      a'.login env c [] username password = (.ok (res, v), tr1) →
      res.StatusCode = 200 →
      a'.listDevices env c tr1 (v.Get "transaction_id") = (.ok [], tr2) →
      (a.Do env username password).code = "" ∧
      (a.Do env username password).err = some (.new "no devices") ∧
      (a.Do env username password).trace =
        [Event.call Fn.login, Event.send c.CheckRedirect a'.loginGet,
         Event.send c.CheckRedirect (a'.loginPost v),
         Event.call Fn.listDevices,
         Event.send c.CheckRedirect (a'.listDevicesRequest (v.Get "transaction_id"))] ∧
      (∀ ds, Event.selectDevice ds ∉ (a.Do env username password).trace) ∧
      Event.call Fn.verify ∉ (a.Do env username password).trace ∧
      Event.call Fn.commit ∉ (a.Do env username password).trace) ∧
    (∀ ds, Event.selectDevice ds ∈ (a.Do env username password).trace →
      ds ≠ [] ∧
      ∃ a' c cr res v tr1 tr2,
        auth.DoSetup env a = .ok (a', c, cr) ∧
        a'.login env c [] username password = (.ok (res, v), tr1) ∧
        res.StatusCode = 200 ∧
        a'.listDevices env c tr1 (v.Get "transaction_id") = (.ok ds, tr2)) := by
  constructor
  · intro a' c cr res v tr1 tr2 hsetup hlogin hstatus hlist
    obtain ⟨page, doc, -, -, -, -, -, -, htr1⟩ := auth.login_ok hlogin
    have htr2 := auth.listDevices_ok hlist
    have hD : (a.Do env username password).code = "" ∧
        (a.Do env username password).err = some (.new "no devices") ∧
        (a.Do env username password).trace = tr2 := by
      simp [auth.Do, hsetup, auth.DoSteps, hlogin, hstatus, StatusOK, hlist]
    obtain ⟨h1, h2, h3⟩ := hD
    rw [h3, h2, h1, htr2, htr1]
    refine ⟨rfl, rfl, by simp, by simp, by simp, by simp⟩
  · intro ds hmem
    unfold auth.Do at hmem
    rcases hsetup : auth.DoSetup env a with err | ⟨a', c, cr⟩
    · rw [hsetup] at hmem
      simp at hmem
    · rw [hsetup] at hmem
      have hstep := auth.DoSteps_events env a' c username password _ hmem
      rcases hstep with ⟨fn, h⟩ | ⟨req, h⟩ | ⟨ds', h, hne, res, v, tr1, tr2, hl, hs, hd⟩
      · cases h
      · cases h
      · cases h
        exact ⟨hne, a', c, cr, res, v, tr1, tr2, rfl, hl, hs, hd⟩

/-- Witness for C5: a server that lists no device, and for the second part
the run with one device. -/
theorem Do_no_devices_witness :
    ((freshAuth.Do noDeviceServer "alice" "secret").code = "" ∧
      (freshAuth.Do noDeviceServer "alice" "secret").err = some (.new "no devices") ∧
      (freshAuth.Do noDeviceServer "alice" "secret").trace =
        [Event.call Fn.login, Event.send .useLastResponse freshAuth.initClient.loginGet,
         Event.send .useLastResponse
           (freshAuth.initClient.loginPost (loginForm "alice" "secret" samplePage)),
         Event.call Fn.listDevices,
         Event.send .useLastResponse (freshAuth.initClient.listDevicesRequest
           (Values.Get (loginForm "alice" "secret" samplePage) "transaction_id"))] ∧
      (∀ ds, Event.selectDevice ds ∉ (freshAuth.Do noDeviceServer "alice" "secret").trace) ∧
      Event.call Fn.verify ∉ (freshAuth.Do noDeviceServer "alice" "secret").trace ∧
      Event.call Fn.commit ∉ (freshAuth.Do noDeviceServer "alice" "secret").trace) ∧
    Event.selectDevice [phone] ∈ (freshAuth.Do mfaServer "alice" "secret").trace ∧
    [phone] ≠ [] :=
  ⟨(Do_no_devices noDeviceServer freshAuth "alice" "secret").1 freshAuth.initClient
      ⟨.useLastResponse, some ⟨0⟩⟩ .nil (htmlPage []) (loginForm "alice" "secret" samplePage)
      (sampleLoginTrace freshAuth.initClient "alice" "secret")
      (sampleListTrace freshAuth.initClient
        (sampleLoginTrace freshAuth.initClient "alice" "secret") "tx1")
      rfl rfl rfl rfl,
    by decide,
    ((Do_no_devices mfaServer freshAuth "alice" "secret").2 [phone] (by decide)).1⟩

/-! ## The form values of `login` -/

theorem Values.lookup_filter_ne (v : Values) (key k : String) :
    (v.filter (fun kv => kv.1 != key)).lookup k = if k = key then none else v.lookup k := by
  induction v with
  | nil => simp
  | cons kv v ih =>
    obtain ⟨k', x⟩ := kv
    by_cases hk : k' = key
    · have hf : ¬ ((fun kv : String × List String => kv.1 != key) (k', x)) = true := by
        simp [hk]
      rw [List.filter_cons, if_neg hf, ih]
      by_cases h : k = key
      · simp [h]
      · have hb : (k == k') = false := by
          rw [hk]
          exact beq_false_of_ne h
        simp [h, List.lookup_cons, hb]
    · have hf : ((fun kv : String × List String => kv.1 != key) (k', x)) = true := by
        simp [hk]
      rw [List.filter_cons, if_pos hf, List.lookup_cons, List.lookup_cons, ih]
      by_cases h : k = key
      · subst h
        have hb : (k == k') = false := beq_false_of_ne (fun e => hk e.symm)
        simp [hb]
      · simp [h]

theorem Values.lookup_Set (v : Values) (key value k : String) :
    (Values.Set v key value).lookup k = if k = key then some [value] else v.lookup k := by
  unfold Values.Set
  rw [List.lookup_append, Values.lookup_filter_ne]
  by_cases h : k = key
  · simp [h]
  · have hb : (k == key) = false := beq_false_of_ne h
    simp [h, List.lookup_cons, hb]

theorem setHidden_lookup (v : Values) (s : Node) (n : String) :
    (setHidden v s).lookup n =
      if s.sets n then (s.attr "value").map (fun x => [x]) else v.lookup n := by
  unfold setHidden Node.sets
  cases hname : s.attr "name" with
  | none => simp
  | some name =>
    cases hvalue : s.attr "value" with
    | none => simp
    | some value =>
      by_cases h : n = name
      · simp [Values.lookup_Set, h]
      · have h' : ¬ name = n := fun e => h e.symm
        simp [Values.lookup_Set, h, h']

/-- After the closure ran over the inputs `l`, the key `n` is bound to the
value of the last input that sets it, or to what it was bound before. -/
theorem foldl_setHidden_lookup (l : List Node) (v : Values) (n : String) :
    (l.foldl setHidden v).lookup n =
      match (l.filter (fun s => s.sets n)).getLast? with
      | some s => (s.attr "value").map (fun x => [x])
      | none => v.lookup n := by
  induction l generalizing v with
  | nil => simp
  | cons s l ih =>
    rw [List.foldl_cons, ih]
    by_cases hs : s.sets n = true
    · rw [List.filter_cons, if_pos hs]
      cases hl : l.filter (fun s => s.sets n) with
      | nil => simp [setHidden_lookup, hs]
      | cons b t => rw [List.getLast?_cons_cons, List.getLast?_cons]
    · rw [List.filter_cons, if_neg hs]
      cases hl : (l.filter (fun s => s.sets n)).getLast? with
      | none => simp [setHidden_lookup, hs]
      | some b => simp

theorem Values.keys_Set_nodup (v : Values) (key value : String)
    (h : (v.map Prod.fst).Nodup) : ((Values.Set v key value).map Prod.fst).Nodup := by
  unfold Values.Set
  rw [List.map_append, List.nodup_append]
  refine ⟨?_, by simp, ?_⟩
  · exact h.sublist ((List.filter_sublist v).map Prod.fst)
  · intro a ha hb
    simp only [List.map_cons, List.map_nil, List.mem_singleton] at hb
    subst hb
    simp at ha

theorem setHidden_nodup (v : Values) (s : Node) (h : (v.map Prod.fst).Nodup) :
    ((setHidden v s).map Prod.fst).Nodup := by
  unfold setHidden
  split
  · exact h
  · split
    · exact h
    · exact Values.keys_Set_nodup v _ _ h

theorem foldl_setHidden_nodup (l : List Node) (v : Values) (h : (v.map Prod.fst).Nodup) :
    ((l.foldl setHidden v).map Prod.fst).Nodup := by
  induction l generalizing v with
  | nil => exact h
  | cons s l ih => exact ih _ (setHidden_nodup v s h)

/-- The keys of the form values are pairwise different. -/
theorem loginForm_nodup (username password : String) (d : Document) :
    ((loginForm username password d).map Prod.fst).Nodup := by
  unfold loginForm
  apply foldl_setHidden_nodup
  simp

/-- A successful `login` returns the form values of the page it fetched, and
its last event is the POST that carries them. -/
theorem auth.login_form {env : Env} {a : auth} {c : Tesla.Client} {tr tr' : List Event}
    {username password : String} {page res : Response} {d : Document} {v : Values}
    (hget : env.ClientDo (tr ++ [Event.call Fn.login]) c.CheckRedirect a.loginGet = .ok page)
    (hdoc : page.Body.document = .ok d)
    (hlogin : a.login env c tr username password = (.ok (res, v), tr')) :
    v = loginForm username password d ∧
      tr'.getLast? = some (Event.send c.CheckRedirect (a.loginPost v)) := by
  obtain ⟨page', d', hget', -, hdoc', hv, -, -, htr⟩ := auth.login_ok hlogin
  rw [hget] at hget'
  cases hget'
  rw [hdoc] at hdoc'
  cases hdoc'
  refine ⟨hv, ?_⟩
  rw [htr]
  simp

/-- C6 (counterexample): a login page with hidden inputs named `identity` and
`credential` makes `login` submit and return their values (`mallory`,
`hunter2`) in place of the username `alice` and the password `secret`. -/
theorem login_credentials_overridden :
    ((freshAuth.initClient.login forgedServer ⟨.useLastResponse, some ⟨0⟩⟩ [] "alice"
        "secret").1.toOption.map
      (fun r => (Values.Get r.2 "identity", Values.Get r.2 "credential"))) =
      some ("mallory", "hunter2") ∧
    (freshAuth.initClient.login forgedServer ⟨.useLastResponse, some ⟨0⟩⟩ [] "alice"
        "secret").2.getLast? =
      some (Event.send .useLastResponse (freshAuth.initClient.loginPost
        [("identity", ["mallory"]), ("_csrf", ["abc"]), ("credential", ["hunter2"])])) ∧
    ((freshAuth.initClient.login forgedServer ⟨.useLastResponse, some ⟨0⟩⟩ [] "alice"
        "secret").1.toOption.map (fun r => Values.Get r.2 "identity")) ≠ some "alice" := by
  decide

/-- C6 (amended): the form values `login` submits and returns hold one value
for `identity` and one for `credential`; `identity` is the username when no
hidden input with a name and a value is named `identity`, and otherwise the
value of the last such input; the same for `credential` and the password. -/
theorem login_credentials (env : Env) (a : auth) (c : Tesla.Client) (tr tr' : List Event)
    (username password : String) (page res : Response) (d : Document) (v : Values)
    (hget : env.ClientDo (tr ++ [Event.call Fn.login]) c.CheckRedirect a.loginGet = .ok page)
    (hdoc : page.Body.document = .ok d)
    (hlogin : a.login env c tr username password = (.ok (res, v), tr')) :
    tr'.getLast? = some (Event.send c.CheckRedirect (a.loginPost v)) ∧
    (v.map Prod.fst).Nodup ∧
    (∃ x, v.lookup "identity" = some [x]) ∧
    (∃ x, v.lookup "credential" = some [x]) ∧
    ((∀ s ∈ d.hiddenInputs, s.sets "identity" = false) → v.Get "identity" = username) ∧
    ((∀ s ∈ d.hiddenInputs, s.sets "credential" = false) → v.Get "credential" = password) ∧
    (∀ s, (d.hiddenInputs.filter (fun s => s.sets "identity")).getLast? = some s →
      s.attr "value" = some (v.Get "identity")) ∧
    (∀ s, (d.hiddenInputs.filter (fun s => s.sets "credential")).getLast? = some s →
      s.attr "value" = some (v.Get "credential")) := by
  obtain ⟨hv, hlast⟩ := auth.login_form hget hdoc hlogin
  have key : ∀ n : String, ∀ own : String,
      List.lookup n [("identity", [username]), ("credential", [password])] = some [own] →
      (∃ x, v.lookup n = some [x]) ∧
      ((∀ s ∈ d.hiddenInputs, s.sets n = false) → v.Get n = own) ∧
      (∀ s, (d.hiddenInputs.filter (fun s => s.sets n)).getLast? = some s →
        s.attr "value" = some (v.Get n)) := by
    intro n own hown
    have hl := foldl_setHidden_lookup d.hiddenInputs
      [("identity", [username]), ("credential", [password])] n
    rw [← loginForm, ← hv] at hl
    cases hf : (d.hiddenInputs.filter (fun s => s.sets n)).getLast? with
    | none =>
      rw [hf] at hl
      simp only at hl
      rw [hown] at hl
      refine ⟨⟨own, hl⟩, fun _ => by simp [Values.Get, hl], fun s hs => by cases hs⟩
    | some s =>
      rw [hf] at hl
      simp only at hl
      have hmem : s ∈ d.hiddenInputs.filter (fun s => s.sets n) :=
        List.mem_of_getLast?_eq_some hf
      have hsets : s.sets n = true := (List.mem_filter.1 hmem).2
      have hval : (s.attr "value").isSome = true := by
        unfold Node.sets at hsets
        simp only [Bool.and_eq_true] at hsets
        exact hsets.2
      obtain ⟨x, hx⟩ := Option.isSome_iff_exists.1 hval
      rw [hx] at hl
      simp only [Option.map_some'] at hl
      refine ⟨⟨x, hl⟩, fun hno => ?_, fun s' hs' => ?_⟩
      · have := hno s (List.mem_filter.1 hmem).1
        rw [hsets] at this
        cases this
      · cases hs'
        simp [Values.Get, hl, hx]
  obtain ⟨h1, h2, h3⟩ := key "identity" username (by simp [List.lookup])
  obtain ⟨h4, h5, h6⟩ := key "credential" password (by simp [List.lookup])
  refine ⟨hlast, ?_, h1, h4, h2, h5, h3, h6⟩
  rw [hv]
  exact loginForm_nodup username password d

/-- Witness for C6 (amended): the sample page, whose credential inputs are
not hidden. -/
theorem login_credentials_witness :
    Values.Get (loginForm "alice" "secret" samplePage) "identity" = "alice" ∧
    Values.Get (loginForm "alice" "secret" samplePage) "credential" = "secret" :=
  have h := login_credentials noMFAServer freshAuth.initClient ⟨.useLastResponse, some ⟨0⟩⟩ []
    (sampleLoginTrace freshAuth.initClient "alice" "secret") "alice" "secret"
    (htmlPage samplePage) (redirectTo [("code", ["XYZ123"])]) samplePage
    (loginForm "alice" "secret" samplePage) rfl rfl rfl
  ⟨h.2.2.2.2.1 (by decide), h.2.2.2.2.2.1 (by decide)⟩

/-- C7: when every selected hidden input has a name and a value, each name
`n` among them is bound in the form values `login` submits to exactly one
value, that of the last hidden input named `n` (the names `identity` and
`credential` included). -/
theorem login_hidden_last_wins (env : Env) (a : auth) (c : Tesla.Client)
    (tr tr' : List Event) (username password : String) (page res : Response) (d : Document)
    (v : Values) (n : String)
    (hget : env.ClientDo (tr ++ [Event.call Fn.login]) c.CheckRedirect a.loginGet = .ok page)
    (hdoc : page.Body.document = .ok d)
    (hlogin : a.login env c tr username password = (.ok (res, v), tr'))
    (hboth : ∀ s ∈ d.hiddenInputs, (s.attr "name").isSome ∧ (s.attr "value").isSome)
    (hn : ∃ s ∈ d.hiddenInputs, s.attr "name" = some n) :
    tr'.getLast? = some (Event.send c.CheckRedirect (a.loginPost v)) ∧
    ∃ s x, (d.hiddenInputs.filter (fun s => s.attr "name" == some n)).getLast? = some s ∧
      s.attr "value" = some x ∧ v.lookup n = some [x] ∧ v.Get n = x ∧
      (v.map Prod.fst).count n = 1 := by
  obtain ⟨hv, hlast⟩ := auth.login_form hget hdoc hlogin
  refine ⟨hlast, ?_⟩
  have hcongr : d.hiddenInputs.filter (fun s => s.attr "name" == some n) =
      d.hiddenInputs.filter (fun s => s.sets n) := by
    apply List.filter_congr
    intro s hs
    have := (hboth s hs).2
    simp [Node.sets, this]
  obtain ⟨s0, hs0, hname0⟩ := hn
  have hne : d.hiddenInputs.filter (fun s => s.attr "name" == some n) ≠ [] := by
    intro h
    have : s0 ∈ d.hiddenInputs.filter (fun s => s.attr "name" == some n) :=
      List.mem_filter.2 ⟨hs0, by simp [hname0]⟩
    rw [h] at this
    cases this
  obtain ⟨s, hs⟩ : ∃ s, (d.hiddenInputs.filter
      (fun s => s.attr "name" == some n)).getLast? = some s := by
    cases h : (d.hiddenInputs.filter (fun s => s.attr "name" == some n)).getLast? with
    | none => exact absurd (List.getLast?_eq_none_iff.1 h) hne
    | some s => exact ⟨s, rfl⟩
  have hmem : s ∈ d.hiddenInputs := (List.mem_filter.1 (List.mem_of_getLast?_eq_some hs)).1
  obtain ⟨x, hx⟩ := Option.isSome_iff_exists.1 (hboth s hmem).2
  have hl := foldl_setHidden_lookup d.hiddenInputs
    [("identity", [username]), ("credential", [password])] n
  rw [← loginForm, ← hv, ← hcongr, hs] at hl
  simp only [hx, Option.map_some'] at hl
  refine ⟨s, x, hs, hx, hl, by simp [Values.Get, hl], ?_⟩
  apply List.count_eq_one_of_mem
  · rw [hv]
    exact loginForm_nodup username password d
  · obtain ⟨l₁, l₂, hsplit, -⟩ := List.lookup_eq_some_iff.1 hl
    rw [hsplit]
    simp

/-- Witness for C7: hidden inputs `_csrf=abc` and `form_key=v` give a
submission that holds identity, credential, `_csrf=abc` and `form_key=v`. -/
theorem login_hidden_last_wins_witness :
    (loginForm "alice" "secret" csrfPage =
      [("identity", ["alice"]), ("credential", ["secret"]), ("_csrf", ["abc"]),
       ("form_key", ["v"])] ∧
      (loginForm "alice" "secret" repeatedPage).lookup "_phase" = some ["second"]) ∧
    ∃ s x, (csrfPage.hiddenInputs.filter (fun s => s.attr "name" == some "_csrf")).getLast?
        = some s ∧
      s.attr "value" = some x ∧
      (loginForm "alice" "secret" csrfPage).lookup "_csrf" = some [x] ∧
      Values.Get (loginForm "alice" "secret" csrfPage) "_csrf" = x ∧
      ((loginForm "alice" "secret" csrfPage).map Prod.fst).count "_csrf" = 1 :=
  ⟨by decide,
   (login_hidden_last_wins csrfServer freshAuth.initClient ⟨.useLastResponse, some ⟨0⟩⟩ []
    [Event.call Fn.login, Event.send .useLastResponse freshAuth.initClient.loginGet,
     Event.send .useLastResponse
       (freshAuth.initClient.loginPost (loginForm "alice" "secret" csrfPage))]
    "alice" "secret" (htmlPage csrfPage) (htmlPage []) csrfPage
    (loginForm "alice" "secret" csrfPage) "_csrf" rfl rfl rfl (by decide)
    ⟨hidden "_csrf" "abc", by decide, rfl⟩).2⟩

/-- C8: for a receiver whose client is set, the client has after `Do` the
`CheckRedirect` it had before, on every path (the theorem is about every world
and so every return of `Do`), and every request of the run was sent while the
policy was the no-follow closure. -/
theorem Do_restores_CheckRedirect (env : Env) (a : auth) (c : Tesla.Client)
    (username password : String) (h : a.Client = some c) :
    (a.Do env username password).a.Client.map (fun c' => c'.CheckRedirect) =
      some c.CheckRedirect ∧
    (∀ policy req, Event.send policy req ∈ (a.Do env username password).trace →
      policy = .useLastResponse) := by
  have hsteps : ∀ jar policy req,
      Event.send policy req ∈
        (auth.DoSteps env a ⟨.useLastResponse, some jar⟩ username password).trace →
      policy = .useLastResponse := by
    intro jar policy req hmem
    have hstep := auth.DoSteps_events env a ⟨.useLastResponse, some jar⟩ username password _ hmem
    rcases hstep with ⟨fn, h⟩ | ⟨req', h⟩ | ⟨ds, h, -⟩
    · cases h
    · cases h
      rfl
    · cases h
  unfold auth.Do auth.DoSetup
  simp only [h, Option.isNone_some, Bool.false_eq_true, if_false, Option.getD_some]
  cases hjar : c.Jar with
  | some jar => exact ⟨by simp, hsteps jar⟩
  | none =>
    dsimp only
    cases hnew : env.cookiejarNew with
    | error err => simp [h]
    | ok jar => exact ⟨by simp, hsteps jar⟩

/-- Witness for C8: a client with a policy of its owner, in a run that fails
at verify. -/
theorem Do_restores_CheckRedirect_witness :
    (ownedAuth.Do refusingServer "alice" "secret").a.Client.map (fun c' => c'.CheckRedirect) =
      some (CheckRedirectFn.custom 7) ∧
    (∀ policy req, Event.send policy req ∈ (ownedAuth.Do refusingServer "alice" "secret").trace →
      policy = .useLastResponse) :=
  Do_restores_CheckRedirect refusingServer ownedAuth ⟨.custom 7, some ⟨3⟩⟩ "alice" "secret" rfl

/-! ## The errors of `Do` -/

/-- The message of a wrapped error starts with the step name. -/
theorem GoError.Error_wrap (step : String) (err : GoError) :
    (GoError.wrap step err).Error = step ++ (": " ++ err.Error) := by
  simp [GoError.Error, String.append_assoc]

/-- Messages that start with the names of two different return statements,
`commit` apart, are different. -/
theorem Exit.name_apart (x y : Exit) (hx : x ≠ .commit) (hy : y ≠ .commit) (hxy : x ≠ y)
    (r s : String) : x.name ++ r ≠ y.name ++ s := by
  intro h
  have h2 := congrArg (fun t : String => t.data.take 2) h
  simp only [String.data_append] at h2
  cases x <;> cases y <;> first
    | exact hx rfl
    | exact hy rfl
    | exact hxy rfl
    | (simp [Exit.name] at h2)

/-- The steps of `Do` end in one of nine ways; a property of all nine holds
of the outcome. -/
theorem auth.DoSteps_cases (env : Env) (a : auth) (c : Tesla.Client)
    (username password : String) (P : Outcome → Prop)
    (hlogin : ∀ err tr, P ⟨.login, "", some (.wrap "login" err), tr⟩)
    (hfound : ∀ res tr, P ⟨.found, (codeFromResponse res).1, (codeFromResponse res).2, tr⟩)
    (hstatus : ∀ n tr, P ⟨.status, "", some (unexpectedStatus n), tr⟩)
    (hlist : ∀ err tr, P ⟨.listDevices, "", some (.wrap "list devices" err), tr⟩)
    (hnone : ∀ tr, P ⟨.noDevices, "", some (.new "no devices"), tr⟩)
    (hselect : ∀ err tr, P ⟨.selectDevice, "", some (.wrap "select device" err), tr⟩)
    (hverify : ∀ err tr, P ⟨.verify, "", some (.wrap "verify" err), tr⟩)
    (hcommit : ∀ tr transactionID,
      P ⟨.commit, (a.commit env c tr transactionID).1.1,
        (a.commit env c tr transactionID).1.2, (a.commit env c tr transactionID).2⟩) :
    P (auth.DoSteps env a c username password) := by
  unfold auth.DoSteps
  rcases a.login env c [] username password with ⟨err | ⟨res, v⟩, tr1⟩
  · exact hlogin err tr1
  · dsimp only
    by_cases hs : res.StatusCode = StatusOK
    · rw [if_pos hs]
      rcases a.listDevices env c tr1 (v.Get "transaction_id") with ⟨err | devices, tr2⟩
      · exact hlist err tr2
      · dsimp only
        by_cases hz : devices.length = 0
        · rw [if_pos hz]
          exact hnone tr2
        · rw [if_neg hz]
          rcases a.SelectDevice devices with ⟨d, passcode, _ | err⟩
          · dsimp only
            rcases a.verify env c (tr2 ++ [Event.selectDevice devices])
              (v.Get "transaction_id") d passcode with ⟨_ | err, tr3⟩
            · dsimp only
              have hlast := hcommit tr3 (v.Get "transaction_id")
              revert hlast
              rcases a.commit env c tr3 (v.Get "transaction_id") with ⟨⟨code, err⟩, tr4⟩
              exact fun hlast => hlast
            · exact hverify err tr3
          · exact hselect err _
    · rw [if_neg hs]
      by_cases hf : res.StatusCode = StatusFound
      · rw [if_pos hf]
        exact hfound res tr1
      · rw [if_neg hf]
        exact hstatus _ tr1

/-- The error of every return statement of the steps of `Do` before line 112
starts with the name of that statement, and is a wrapped error where the
statement wraps. -/
theorem auth.DoSteps_error (env : Env) (a : auth) (c : Tesla.Client)
    (username password : String) (e : GoError)
    (he : (auth.DoSteps env a c username password).err = some e)
    (hc : (auth.DoSteps env a c username password).exit ≠ .commit) :
    (∃ rest, e.Error = (auth.DoSteps env a c username password).exit.name ++ rest) ∧
    ((auth.DoSteps env a c username password).exit.wraps = true →
      ∃ inner, e = .wrap (auth.DoSteps env a c username password).exit.name inner) := by
  revert he hc
  apply auth.DoSteps_cases env a c username password
    (fun o => o.err = some e → o.exit ≠ .commit →
      (∃ rest, e.Error = o.exit.name ++ rest) ∧
      (o.exit.wraps = true → ∃ inner, e = .wrap o.exit.name inner))
  · intro err tr he _
    cases he
    exact ⟨⟨_, GoError.Error_wrap _ _⟩, fun _ => ⟨err, rfl⟩⟩
  · intro res tr he _
    unfold codeFromResponse at he
    split at he
    · simp only [Option.some.injEq] at he
      subst he
      exact ⟨⟨_, GoError.Error_wrap _ _⟩, fun _ => ⟨_, rfl⟩⟩
    · cases he
  · intro n tr he _
    cases he
    exact ⟨⟨toString n, rfl⟩, fun h => by cases h⟩
  · intro err tr he _
    cases he
    exact ⟨⟨_, GoError.Error_wrap _ _⟩, fun _ => ⟨err, rfl⟩⟩
  · intro tr he _
    cases he
    exact ⟨⟨"", rfl⟩, fun h => by cases h⟩
  · intro err tr he _
    cases he
    exact ⟨⟨_, GoError.Error_wrap _ _⟩, fun _ => ⟨err, rfl⟩⟩
  · intro err tr he _
    cases he
    exact ⟨⟨_, GoError.Error_wrap _ _⟩, fun _ => ⟨err, rfl⟩⟩
  · intro tr transactionID _ hc
    exact absurd rfl hc

/-- A failure of the setup of `Do` is the wrapped error of the cookie jar. -/
theorem auth.DoSetup_error {env : Env} {a : auth} {err : GoError}
    (h : auth.DoSetup env a = .error err) : ∃ inner, err = .wrap "new cookie jar" inner := by
  unfold auth.DoSetup at h
  dsimp only at h
  split at h
  · cases h
  · split at h
    · cases h
      exact ⟨_, rfl⟩
    · cases h

/-- The same for `Do` itself, line 69 included. -/
theorem auth.Do_error (env : Env) (a : auth) (username password : String) (e : GoError)
    (he : (a.Do env username password).err = some e)
    (hc : (a.Do env username password).exit ≠ .commit) :
    (∃ rest, e.Error = (a.Do env username password).exit.name ++ rest) ∧
    ((a.Do env username password).exit.wraps = true →
      ∃ inner, e = .wrap (a.Do env username password).exit.name inner) := by
  unfold auth.Do at he hc ⊢
  rcases hsetup : auth.DoSetup env a with err | ⟨a', c, cr⟩
  · rw [hsetup] at he
    simp only [Option.some.injEq] at he
    subst he
    obtain ⟨inner, rfl⟩ := auth.DoSetup_error hsetup
    exact ⟨⟨_, GoError.Error_wrap _ _⟩, fun _ => ⟨_, rfl⟩⟩
  · rw [hsetup] at he hc
    exact auth.DoSteps_error env a' c username password e he hc

/-- An error of `commit` is one of four: the request could not be made, the
client failed, the status was not 302, the `Location` could not be read. -/
theorem auth.commit_error (env : Env) (a : auth) (c : Tesla.Client) (tr : List Event)
    (transactionID : String) (e : GoError)
    (he : (a.commit env c tr transactionID).1.2 = some e) :
    ∃ rest, e.Error = "new request" ++ rest ∨ e.Error = "do" ++ rest ∨
      e.Error = "unexpected status code " ++ rest ∨ e.Error = "response location" ++ rest := by
  unfold auth.commit at he
  simp only [Client.Do] at he
  split at he
  · simp only [Option.some.injEq] at he
    subst he
    exact ⟨_, Or.inl (GoError.Error_wrap _ _)⟩
  · split at he
    · simp only [Option.some.injEq] at he
      subst he
      exact ⟨_, Or.inr (Or.inl (GoError.Error_wrap _ _))⟩
    · split at he
      · simp only [Option.some.injEq] at he
        subst he
        exact ⟨toString _, Or.inr (Or.inr (Or.inl rfl))⟩
      · unfold codeFromResponse at he
        split at he
        · simp only [Option.some.injEq] at he
          subst he
          exact ⟨_, Or.inr (Or.inr (Or.inr (GoError.Error_wrap _ _)))⟩
        · cases he

/-- The error of line 112 is the error `commit` returned. -/
theorem auth.DoSteps_commit_error (env : Env) (a : auth) (c : Tesla.Client)
    (username password : String) (e : GoError)
    (he : (auth.DoSteps env a c username password).err = some e)
    (hc : (auth.DoSteps env a c username password).exit = .commit) :
    ∃ rest, e.Error = "new request" ++ rest ∨ e.Error = "do" ++ rest ∨
      e.Error = "unexpected status code " ++ rest ∨ e.Error = "response location" ++ rest := by
  revert he hc
  apply auth.DoSteps_cases env a c username password
    (fun o => o.err = some e → o.exit = .commit →
      ∃ rest, e.Error = "new request" ++ rest ∨ e.Error = "do" ++ rest ∨
        e.Error = "unexpected status code " ++ rest ∨
        e.Error = "response location" ++ rest)
  · intro err tr _ hc
    cases hc
  · intro res tr _ hc
    cases hc
  · intro n tr _ hc
    cases hc
  · intro err tr _ hc
    cases hc
  · intro tr _ hc
    cases hc
  · intro err tr _ hc
    cases hc
  · intro err tr _ hc
    cases hc
  · intro tr transactionID he _
    exact auth.commit_error env a c tr transactionID e he

/-- The same for `Do` itself. -/
theorem auth.Do_commit_error (env : Env) (a : auth) (username password : String)
    (e : GoError)
    (he : (a.Do env username password).err = some e)
    (hc : (a.Do env username password).exit = .commit) :
    ∃ rest, e.Error = "new request" ++ rest ∨ e.Error = "do" ++ rest ∨
      e.Error = "unexpected status code " ++ rest ∨ e.Error = "response location" ++ rest := by
  unfold auth.Do at he hc
  rcases hsetup : auth.DoSetup env a with err | ⟨a', c, cr⟩
  · rw [hsetup] at hc
    cases hc
  · rw [hsetup] at he hc
    exact auth.DoSteps_commit_error env a' c username password e he hc

/-- A message that starts like an error of `commit` is none of the messages
that start with the name of a return statement before line 112, the status
check (line 90) and the `Location` of the form answer (line 88) apart. -/
theorem Exit.name_apart_commit (y : Exit) (hy : y ≠ .commit) (hs : y ≠ .status)
    (hf : y ≠ .found) (r s : String)
    (h : ("new request" ++ r = y.name ++ s) ∨ ("do" ++ r = y.name ++ s) ∨
      ("unexpected status code " ++ r = y.name ++ s) ∨
      ("response location" ++ r = y.name ++ s)) : False := by
  rcases h with h | h | h | h
  all_goals
    have h5 := congrArg (fun t : String => t.data.take 5) h
    simp only [String.data_append] at h5
    cases y <;> first
      | exact hy rfl
      | exact hs rfl
      | exact hf rfl
      | (simp [Exit.name] at h5)

/-- Errors that `Do` returns from two different return statements have
different messages, but for one case: an error of line 112 (`commit`) against
an error of line 90 (status check of the form POST) or of line 88 (`Location`
of the form answer). -/
theorem Do_errors_apart (env1 env2 : Env) (a1 a2 : auth)
    (u1 p1 u2 p2 : String) (e1 e2 : GoError)
    (h1 : (a1.Do env1 u1 p1).err = some e1)
    (h2 : (a2.Do env2 u2 p2).err = some e2)
    (hx : (a1.Do env1 u1 p1).exit ≠ (a2.Do env2 u2 p2).exit)
    (hs1 : (a1.Do env1 u1 p1).exit = .commit →
      (a2.Do env2 u2 p2).exit ≠ .status ∧ (a2.Do env2 u2 p2).exit ≠ .found)
    (hs2 : (a2.Do env2 u2 p2).exit = .commit →
      (a1.Do env1 u1 p1).exit ≠ .status ∧ (a1.Do env1 u1 p1).exit ≠ .found) :
    e1.Error ≠ e2.Error ∧ e1 ≠ e2 := by
  have hne : e1.Error ≠ e2.Error := by
    by_cases hc1 : (a1.Do env1 u1 p1).exit = .commit
    · have hc2 : (a2.Do env2 u2 p2).exit ≠ .commit := fun h => hx (hc1.trans h.symm)
      obtain ⟨r1, hr1⟩ := auth.Do_commit_error env1 a1 u1 p1 e1 h1 hc1
      obtain ⟨⟨r2, hr2⟩, -⟩ := auth.Do_error env2 a2 u2 p2 e2 h2 hc2
      intro h
      rw [h, hr2] at hr1
      exact Exit.name_apart_commit _ hc2 (hs1 hc1).1 (hs1 hc1).2 r1 r2
        (by rcases hr1 with h | h | h | h
            · exact Or.inl h.symm
            · exact Or.inr (Or.inl h.symm)
            · exact Or.inr (Or.inr (Or.inl h.symm))
            · exact Or.inr (Or.inr (Or.inr h.symm)))
    · by_cases hc2 : (a2.Do env2 u2 p2).exit = .commit
      · obtain ⟨r2, hr2⟩ := auth.Do_commit_error env2 a2 u2 p2 e2 h2 hc2
        obtain ⟨⟨r1, hr1⟩, -⟩ := auth.Do_error env1 a1 u1 p1 e1 h1 hc1
        intro h
        rw [← h, hr1] at hr2
        exact Exit.name_apart_commit _ hc1 (hs2 hc2).1 (hs2 hc2).2 r2 r1
          (by rcases hr2 with h | h | h | h
              · exact Or.inl h.symm
              · exact Or.inr (Or.inl h.symm)
              · exact Or.inr (Or.inr (Or.inl h.symm))
              · exact Or.inr (Or.inr (Or.inr h.symm)))
      · obtain ⟨⟨r1, hr1⟩, -⟩ := auth.Do_error env1 a1 u1 p1 e1 h1 hc1
        obtain ⟨⟨r2, hr2⟩, -⟩ := auth.Do_error env2 a2 u2 p2 e2 h2 hc2
        rw [hr1, hr2]
        exact Exit.name_apart _ _ hc1 hc2 hx r1 r2
  exact ⟨hne, fun h => hne (by rw [h])⟩

/-- C9 (the code departs from the claim): line 112 returns the error of
`commit` without the step name that lines 81, 97, 106 and 110 put before the
error of their step. So a commit answered 500 gives the error of a form POST
answered 500 (`unexpected status code 500`), and a commit answered with a 302
without `Location` gives the error of a form POST answered so: failures of
two different steps that the caller cannot tell apart. -/
theorem Do_commit_error_same_as_earlier_step :
    (freshAuth.Do formFailsServer "alice" "secret").exit = .status ∧
    (freshAuth.Do commitFailsServer "alice" "secret").exit = .commit ∧
    (freshAuth.Do formFailsServer "alice" "secret").err =
      some (.new "unexpected status code 500") ∧
    (freshAuth.Do commitFailsServer "alice" "secret").err =
      some (.new "unexpected status code 500") ∧
    (freshAuth.Do formNoLocationServer "alice" "secret").exit = .found ∧
    (freshAuth.Do commitNoLocationServer "alice" "secret").exit = .commit ∧
    (freshAuth.Do formNoLocationServer "alice" "secret").err =
      some (.wrap "response location" ErrNoLocation) ∧
    (freshAuth.Do commitNoLocationServer "alice" "secret").err =
      some (.wrap "response location" ErrNoLocation) ∧
    (freshAuth.Do listFailsServer "alice" "secret").exit = .listDevices ∧
    (freshAuth.Do listFailsServer "alice" "secret").err =
      some (.wrap "list devices" (.new "unexpected status code 500")) := by
  decide

/-- C10: `codeFromResponse` returns an error exactly when the `Location`
header is missing or is not a URL; for a URL it returns no error and the
first value of the query parameter `code`, the empty string when there is no
such parameter; so `Do` can return an empty code and no error, at line 88 and
at line 112. -/
theorem codeFromResponse_spec (res : Response) :
    ((codeFromResponse res).2 ≠ none ↔
      (res.Header = .missing ∨ ∃ err, res.Header = .unparsable err)) ∧
    (∀ u, res.Header = .url u →
      (codeFromResponse res).2 = none ∧
      (∀ x rest, u.Query.lookup "code" = some (x :: rest) → (codeFromResponse res).1 = x) ∧
      (u.Query.lookup "code" = none → (codeFromResponse res).1 = "")) ∧
    ((freshAuth.Do noCodeServer "alice" "secret").exit = .found ∧
      (freshAuth.Do noCodeServer "alice" "secret").code = "" ∧
      (freshAuth.Do noCodeServer "alice" "secret").err = none) ∧
    ((freshAuth.Do noCodeCommitServer "alice" "secret").exit = .commit ∧
      (freshAuth.Do noCodeCommitServer "alice" "secret").code = "" ∧
      (freshAuth.Do noCodeCommitServer "alice" "secret").err = none) := by
  refine ⟨?_, ?_, by decide, by decide⟩
  · unfold codeFromResponse Response.Location
    cases res.Header <;> simp
  · intro u hu
    unfold codeFromResponse Response.Location
    rw [hu]
    refine ⟨rfl, fun x rest h => Values.Get_of_lookup h, fun h => ?_⟩
    simp [Values.Get, h]

/-! ## The fields of the `login` command -/

/-- With a non-empty flag `username`, `promptField` returns its value for
every field and asks nothing. -/
theorem promptField_of_username (ui : Terminal) (asked : List Prompt) (c : Context)
    (field label : String) (h : c.String "username" ≠ "") :
    promptField ui asked c field label = ((c.String "username", none), asked) := by
  simp [promptField, h]

/-- Without the flag `username`, `promptField` runs a prompt for every field,
whatever the flag named like the field holds. -/
theorem promptField_of_no_username (ui : Terminal) (asked : List Prompt) (c : Context)
    (field label : String) (h : c.String "username" = "") :
    promptField ui asked c field label =
      (ui asked ⟨label, if field == "password" then some '*' else none, promptValidate⟩,
        asked ++ [⟨label, if field == "password" then some '*' else none, promptValidate⟩]) := by
  simp [promptField, h]

/-- C11 (the code departs from the claim): on the command line
`login --username alice --password secret` the flag `password` holds `secret`,
yet `promptField` returns `alice` for the field `password` without a prompt,
and `login` hands `(alice, alice)` to `Do`; on `login --password secret`
the field `password` is prompted for and the answer typed is returned, not
the flag. -/
theorem promptField_password_reads_username_flag :
    bothFlags.String "password" = "secret" ∧
    promptField (typist []) [] bothFlags "password" "Password" = (("alice", none), []) ∧
    (login (typist []) (.ok (List.replicate 87 0)) (.ok (List.replicate 9 0))
      sampleAuthCodeURL (pickFirst "123456") bothFlags).credentials =
      some ("alice", "alice") ∧
    (login (typist []) (.ok (List.replicate 87 0)) (.ok (List.replicate 9 0))
      sampleAuthCodeURL (pickFirst "123456") bothFlags).labels = [] ∧
    passwordFlag.String "password" = "secret" ∧
    (promptField (typist ["typed"]) [] passwordFlag "password" "Password").1 =
      ("typed", none) ∧
    (promptField (typist ["typed"]) [] passwordFlag "password" "Password").2.map
      Prompt.Label = ["Password"] := by
  refine ⟨by decide, rfl, by decide, by decide, by decide, by decide, by decide⟩

end Tesla
